import Mathlib

/-!
Verification development for the `dictwalk` path-expression engine
(`src/rust/src/lib.rs`, a PyO3 extension operating on Python values).

The engine is shallowly embedded: Python values become the inductive `Val`
(floats and datetimes are outside the modelled value universe; built-in
filters whose behaviour necessarily produces floats, datetimes or regex
matches return the distinguished hard error `unmodeled`), Python
exceptions become `Except PyErrKind`, and the in-place mutation performed
by SET/UNSET is modelled functionally: every mutating helper of the source
returns the updated current node, and the one place where the source's
return value diverges from the in-place effect (a fresh dict substituted
for an incompatible root by `coerce_current_to_dict_for_write`, then
discarded by `RustDictWalk::set`) is reproduced explicitly in `rustSet`.

Dictionaries are insertion-ordered association lists with the usual Python
dict operations (`set_item` replaces the first matching key in place or
appends).  Python's order-insensitive dict equality is simplified to
ordered equality; no result below depends on comparing two dicts.
-/

namespace DictWalk

/-- Python values handled by the engine: `None`, `bool`, `int`, `str`,
`list`, `dict` (string keys, insertion ordered). -/
inductive Val where
  | none
  | bool (b : Bool)
  | int (n : Int)
  | str (s : String)
  | list (xs : List Val)
  | dict (xs : List (String × Val))

mutual

/-- Structural (Lean-level) equality test for `Val`; used only to obtain
decidable equality for theorem statements, not by the engine itself. -/
def Val.beq : Val → Val → Bool
  | .none, .none => true
  | .bool a, .bool b => a == b
  | .int a, .int b => a == b
  | .str a, .str b => a == b
  | .list a, .list b => Val.beqList a b
  | .dict a, .dict b => Val.beqDict a b
  | _, _ => false

def Val.beqList : List Val → List Val → Bool
  | [], [] => true
  | x :: xs, y :: ys => Val.beq x y && Val.beqList xs ys
  | _, _ => false

def Val.beqDict : List (String × Val) → List (String × Val) → Bool
  | [], [] => true
  | (k, v) :: xs, (k', v') :: ys => k == k' && Val.beq v v' && Val.beqDict xs ys
  | _, _ => false

end

mutual

def Val.eq_of_beq : (a b : Val) → Val.beq a b = true → a = b
  | .none, .none, _ => rfl
  | .bool _, .bool _, h => congrArg Val.bool (by simpa [Val.beq] using h)
  | .int _, .int _, h => congrArg Val.int (by simpa [Val.beq] using h)
  | .str _, .str _, h => congrArg Val.str (by simpa [Val.beq] using h)
  | .list _, .list _, h => congrArg Val.list (Val.eqList_of_beqList _ _ h)
  | .dict _, .dict _, h => congrArg Val.dict (Val.eqDict_of_beqDict _ _ h)
  | .none, .bool _, h => nomatch h
  | .none, .int _, h => nomatch h
  | .none, .str _, h => nomatch h
  | .none, .list _, h => nomatch h
  | .none, .dict _, h => nomatch h
  | .bool _, .none, h => nomatch h
  | .bool _, .int _, h => nomatch h
  | .bool _, .str _, h => nomatch h
  | .bool _, .list _, h => nomatch h
  | .bool _, .dict _, h => nomatch h
  | .int _, .none, h => nomatch h
  | .int _, .bool _, h => nomatch h
  | .int _, .str _, h => nomatch h
  | .int _, .list _, h => nomatch h
  | .int _, .dict _, h => nomatch h
  | .str _, .none, h => nomatch h
  | .str _, .bool _, h => nomatch h
  | .str _, .int _, h => nomatch h
  | .str _, .list _, h => nomatch h
  | .str _, .dict _, h => nomatch h
  | .list _, .none, h => nomatch h
  | .list _, .bool _, h => nomatch h
  | .list _, .int _, h => nomatch h
  | .list _, .str _, h => nomatch h
  | .list _, .dict _, h => nomatch h
  | .dict _, .none, h => nomatch h
  | .dict _, .bool _, h => nomatch h
  | .dict _, .int _, h => nomatch h
  | .dict _, .str _, h => nomatch h
  | .dict _, .list _, h => nomatch h

def Val.eqList_of_beqList : (a b : List Val) → Val.beqList a b = true → a = b
  | [], [], _ => rfl
  | x :: xs, y :: ys, h => by
      have h' := h
      simp only [Val.beqList, Bool.and_eq_true] at h'
      exact congrArg₂ List.cons (Val.eq_of_beq x y h'.1)
        (Val.eqList_of_beqList xs ys h'.2)
  | [], _ :: _, h => nomatch h
  | _ :: _, [], h => nomatch h

def Val.eqDict_of_beqDict :
    (a b : List (String × Val)) → Val.beqDict a b = true → a = b
  | [], [], _ => rfl
  | (k, v) :: xs, (k', v') :: ys, h => by
      have h' := h
      simp only [Val.beqDict, Bool.and_eq_true] at h'
      have hk : k = k' := by simpa using h'.1.1
      have hv : v = v' := Val.eq_of_beq v v' h'.1.2
      have hrest := Val.eqDict_of_beqDict xs ys h'.2
      simp [hk, hv, hrest]
  | [], _ :: _, h => nomatch h
  | _ :: _, [], h => nomatch h

end

mutual

def Val.beq_refl : (a : Val) → Val.beq a a = true
  | .none => rfl
  | .bool b => by simp [Val.beq]
  | .int n => by simp [Val.beq]
  | .str s => by simp [Val.beq]
  | .list xs => Val.beqList_refl xs
  | .dict xs => Val.beqDict_refl xs

def Val.beqList_refl : (a : List Val) → Val.beqList a a = true
  | [] => rfl
  | x :: xs => by
      simp only [Val.beqList, Bool.and_eq_true]
      exact ⟨Val.beq_refl x, Val.beqList_refl xs⟩

def Val.beqDict_refl : (a : List (String × Val)) → Val.beqDict a a = true
  | [] => rfl
  | (k, v) :: xs => by
      simp only [Val.beqDict, Bool.and_eq_true]
      exact ⟨⟨by simp, Val.beq_refl v⟩, Val.beqDict_refl xs⟩

end

instance : DecidableEq Val := fun a b =>
  if h : Val.beq a b = true then .isTrue (Val.eq_of_beq a b h)
  else .isFalse fun hc => h (hc ▸ Val.beq_refl a)

instance {ε α : Type} [DecidableEq ε] [DecidableEq α] :
    DecidableEq (Except ε α) := fun a b =>
  match a, b with
  | .ok x, .ok y =>
      if h : x = y then .isTrue (by rw [h])
      else .isFalse fun hc => h (by injection hc)
  | .error x, .error y =>
      if h : x = y then .isTrue (by rw [h])
      else .isFalse fun hc => h (by injection hc)
  | .ok _, .error _ => .isFalse fun hc => by injection hc
  | .error _, .ok _ => .isFalse fun hc => by injection hc

/-- Error kinds of the Python exceptions / tagged dictwalk errors raised by
the source.  `unmodeled` marks behaviour outside the embedded value
universe (floats, datetimes, regexes) and is a hard error. -/
inductive PyErrKind where
  | keyErr
  | typeErr
  | operatorErr
  | indexErr
  | valueErr
  | attrErr
  | zeroDivErr
  | parseErr
  | resolutionErr
  | dictwalkErr
  | unmodeled
deriving DecidableEq

abbrev PyResult (α : Type) := Except PyErrKind α

/-- `is_soft_resolution_error`: KeyError, TypeError and DictWalkOperatorError
are the soft kinds swallowed by lenient reads. -/
def isSoftResolutionError : PyErrKind → Bool
  | .keyErr => true
  | .typeErr => true
  | .operatorErr => true
  | _ => false

def Val.isDict : Val → Bool
  | .dict _ => true
  | _ => false

def Val.isList : Val → Bool
  | .list _ => true
  | _ => false

def Val.isStr : Val → Bool
  | .str _ => true
  | _ => false

/-- `is_dict_or_list`. -/
def isDictOrList (v : Val) : Bool :=
  v.isDict || v.isList

/-!  Kernel-reducible string helpers.  Several core `String` operations
(`startsWith`, `splitOn`, `trim`, ...) are compiled by well-founded
recursion and get stuck under definitional reduction; the engine below
uses these character-list versions instead so that concrete runs evaluate
by `rfl`/`decide`. -/

def strIsEmpty (s : String) : Bool :=
  s.data.isEmpty

def strStartsWith (s p : String) : Bool :=
  p.data.isPrefixOf s.data

def strEndsWith (s p : String) : Bool :=
  p.data.reverse.isPrefixOf s.data.reverse

def strDrop (s : String) (n : Nat) : String :=
  String.mk (s.data.drop n)

def strDropRight (s : String) (n : Nat) : String :=
  String.mk (s.data.take (s.data.length - n))

def strTrim (s : String) : String :=
  String.mk
    (((s.data.dropWhile Char.isWhitespace).reverse.dropWhile
      Char.isWhitespace).reverse)

def strToLower (s : String) : String :=
  String.mk (s.data.map Char.toLower)

def strToUpper (s : String) : String :=
  String.mk (s.data.map Char.toUpper)

def splitOnCharsAux (sep : List Char) : Nat → List Char → List Char →
    List (List Char)
  | _, [], acc => [acc.reverse]
  | 0, rest, acc => [acc.reverse ++ rest]
  | f + 1, c :: rest, acc =>
      if sep.isPrefixOf (c :: rest) then
        acc.reverse :: splitOnCharsAux sep f ((c :: rest).drop sep.length) []
      else splitOnCharsAux sep f rest (c :: acc)

/-- `String.splitOn` (an empty separator yields the whole string). -/
def strSplitOn (s sep : String) : List String :=
  if strIsEmpty sep then [s]
  else (splitOnCharsAux sep.data s.data.length s.data []).map String.mk

/-- Python `str.split()` (whitespace runs, empties dropped). -/
def strSplitWhitespaceAux : List Char → String → List String
  | [], cur => if strIsEmpty cur then [] else [cur]
  | c :: rest, cur =>
      if c.isWhitespace then
        if strIsEmpty cur then strSplitWhitespaceAux rest ""
        else cur :: strSplitWhitespaceAux rest ""
      else strSplitWhitespaceAux rest (cur.push c)

def strSplitWhitespace (s : String) : List String :=
  strSplitWhitespaceAux s.data ""

def strReplaceAux (old new : List Char) : Nat → List Char → List Char
  | _, [] => []
  | 0, rest => rest
  | f + 1, c :: rest =>
      if old.isPrefixOf (c :: rest) then
        new ++ strReplaceAux old new f ((c :: rest).drop old.length)
      else c :: strReplaceAux old new f rest

/-- Python `str.replace` (left-to-right, non-overlapping; an empty pattern
leaves the string unchanged). -/
def strReplace (s old new : String) : String :=
  if strIsEmpty old then s
  else String.mk (strReplaceAux old.data new.data s.data.length s.data)

def strIntercalate (sep : String) : List String → String
  | [] => ""
  | [x] => x
  | x :: xs => x ++ sep ++ strIntercalate sep xs

def digitsToNat (ds : List Char) : Nat :=
  ds.foldl (fun acc c => acc * 10 + (c.toNat - 48)) 0

/-- Parse a `-?\d+`-shaped string (as `str::parse::<isize>` sees the regex
groups; `""` and `"-"` fail). -/
def strToIntSigned (s : String) : Option Int :=
  match s.data with
  | '-' :: rest =>
      if !rest.isEmpty && rest.all Char.isDigit then
        some (-(digitsToNat rest : Int))
      else Option.none
  | ds =>
      if !ds.isEmpty && ds.all Char.isDigit then some (digitsToNat ds : Int)
      else Option.none

/-- Lexicographic code-point comparison (Python string ordering). -/
def charListLt : List Char → List Char → Bool
  | [], [] => false
  | [], _ :: _ => true
  | _ :: _, [] => false
  | a :: as, b :: bs =>
      if a.toNat < b.toNat then true
      else if b.toNat < a.toNat then false
      else charListLt as bs

def strLt (s t : String) : Bool :=
  charListLt s.data t.data

/-- Kernel-reducible decimal rendering (core `toString` on `Int` is stuck
under definitional reduction). -/
def natToStrAux : Nat → Nat → String
  | 0, _ => ""
  | f + 1, n =>
      if n < 10 then String.mk [Char.ofNat (48 + n)]
      else natToStrAux f (n / 10) ++ String.mk [Char.ofNat (48 + n % 10)]

def natToStr (n : Nat) : String :=
  natToStrAux (n + 1) n

def intToStr (i : Int) : String :=
  if i < 0 then "-" ++ natToStr i.natAbs else natToStr i.toNat

/-- Python dict lookup (`dict.get_item`): first binding of the key. -/
def dictGet (d : List (String × Val)) (k : String) : Option Val :=
  match d with
  | [] => Option.none
  | (k', v) :: rest => if k' = k then some v else dictGet rest k

/-- Python dict `__contains__`. -/
def dictContains (d : List (String × Val)) (k : String) : Bool :=
  (dictGet d k).isSome

/-- Python dict `set_item`: replace the first binding in place, else append. -/
def dictSet (d : List (String × Val)) (k : String) (v : Val) :
    List (String × Val) :=
  match d with
  | [] => [(k, v)]
  | (k', v') :: rest =>
      if k' = k then (k', v) :: rest else (k', v') :: dictSet rest k v

/-- Python dict `del_item`: drop the first binding of the key. -/
def dictDel (d : List (String × Val)) (k : String) : List (String × Val) :=
  match d with
  | [] => []
  | (k', v') :: rest =>
      if k' = k then rest else (k', v') :: dictDel rest k

def dictKeys (d : List (String × Val)) : List String :=
  d.map (·.1)

/-- Python truthiness (`is_truthy`). -/
def pyTruthy : Val → Bool
  | .none => false
  | .bool b => b
  | .int n => n ≠ 0
  | .str s => s ≠ ""
  | .list xs => !xs.isEmpty
  | .dict xs => !xs.isEmpty

/-- Numeric view: Python treats `bool` as an `int` subclass. -/
def asNum? : Val → Option Int
  | .bool b => some (if b then 1 else 0)
  | .int n => some n
  | _ => Option.none

def Val.isNum (v : Val) : Bool :=
  (asNum? v).isSome

mutual

/-- Python `==` on the embedded universe (`rich_compare` with `CompareOp::Eq`).
Bools compare equal to their numeric value; dict equality is simplified to
insertion-ordered equality. -/
def pyEq : Val → Val → Bool
  | .none, .none => true
  | .bool a, .bool b => a == b
  | .bool a, .int n => (if a then (1 : Int) else 0) == n
  | .int n, .bool a => n == (if a then (1 : Int) else 0)
  | .int a, .int b => a == b
  | .str a, .str b => a == b
  | .list a, .list b => pyEqList a b
  | .dict a, .dict b => pyEqDict a b
  | _, _ => false

def pyEqList : List Val → List Val → Bool
  | [], [] => true
  | x :: xs, y :: ys => pyEq x y && pyEqList xs ys
  | _, _ => false

def pyEqDict : List (String × Val) → List (String × Val) → Bool
  | [], [] => true
  | (k, v) :: xs, (k', v') :: ys => k == k' && pyEq v v' && pyEqDict xs ys
  | _, _ => false

end

mutual

/-- Python `repr()` (strings are shown in single quotes; escaping of quote
characters inside strings is not modelled). -/
def pyRepr : Val → String
  | .none => "None"
  | .bool b => if b then "True" else "False"
  | .int n => intToStr n
  | .str s => "'" ++ s ++ "'"
  | .list xs => "[" ++ pyReprList xs ++ "]"
  | .dict xs => "\x7b" ++ pyReprDict xs ++ "\x7d"

def pyReprList : List Val → String
  | [] => ""
  | [x] => pyRepr x
  | x :: xs => pyRepr x ++ ", " ++ pyReprList xs

def pyReprDict : List (String × Val) → String
  | [] => ""
  | [(k, v)] => "'" ++ k ++ "': " ++ pyRepr v
  | (k, v) :: xs => "'" ++ k ++ "': " ++ pyRepr v ++ ", " ++ pyReprDict xs

end

/-- Python `str()` (identical to `repr()` except on strings). -/
def pyStr : Val → String
  | .str s => s
  | v => pyRepr v

mutual

/-- Python ordering (`<`, `>`, `<=`, `>=`): numbers by value, strings and
lists lexicographically; every other combination raises `TypeError`. -/
def pyOrd : Val → Val → PyResult Ordering
  | a, b =>
    match asNum? a, asNum? b with
    | some x, some y => .ok (compare x y)
    | _, _ =>
      match a, b with
      | .str s, .str t =>
          .ok (if strLt s t then .lt else if strLt t s then .gt else .eq)
      | .list xs, .list ys => pyOrdList xs ys
      | _, _ => .error .typeErr

def pyOrdList : List Val → List Val → PyResult Ordering
  | [], [] => .ok .eq
  | [], _ :: _ => .ok .lt
  | _ :: _, [] => .ok .gt
  | x :: xs, y :: ys =>
      if pyEq x y then pyOrdList xs ys
      else do
        let o ← pyOrd x y
        .ok o

end

/-- `compare_values`: map the operator text to a rich comparison; unknown
operators raise `DictWalkOperatorError`. -/
def compareValues (a b : Val) (op : String) : PyResult Bool :=
  if op = "==" then .ok (pyEq a b)
  else if op = "!=" then .ok (!pyEq a b)
  else if op = ">" then do
    let o ← pyOrd a b
    .ok (o = .gt)
  else if op = "<" then do
    let o ← pyOrd a b
    .ok (o = .lt)
  else if op = ">=" then do
    let o ← pyOrd a b
    .ok (o ≠ .lt)
  else if op = "<=" then do
    let o ← pyOrd a b
    .ok (o ≠ .gt)
  else .error .operatorErr

/-- `compare_with_fallback`: on `TypeError` both sides are stringified and
compared again. -/
def compareWithFallback (a b : Val) (op : String) : PyResult Bool :=
  match compareValues a b op with
  | .ok r => .ok r
  | .error e =>
      if e = .typeErr then compareValues (.str (pyStr a)) (.str (pyStr b)) op
      else .error e

/-- Parse an optionally signed decimal integer (whitespace-trimmed), as
Python's `int()` / `ast.literal_eval` accept (digit-group underscores are
not modelled). -/
def pyParseInt (s : String) : Option Int :=
  match (strTrim s).data with
  | '+' :: rest =>
      if !rest.isEmpty && rest.all Char.isDigit then
        some (digitsToNat rest : Int)
      else Option.none
  | ds => strToIntSigned (String.mk ds)

/-- `parse_literal` (`ast.literal_eval` with string fallback): integers,
booleans, `None` and quoted strings; floats and container literals fall
back to the raw string (they are outside the embedded universe). -/
def parseLiteral (s : String) : Val :=
  let t := strTrim s
  if t = "True" then .bool true
  else if t = "False" then .bool false
  else if t = "None" then .none
  else
    match pyParseInt t with
    | some n => .int n
    | Option.none =>
        if t.length ≥ 2 &&
            ((strStartsWith t "'" && strEndsWith t "'") ||
              (strStartsWith t "\"" && strEndsWith t "\"")) then
          .str (strDropRight (strDrop t 1) 1)
        else .str s

/-- Python `in` on strings (substring test). -/
def strContains (hay needle : String) : Bool :=
  strIsEmpty needle ||
    (List.range hay.data.length).any fun i =>
      needle.data.isPrefixOf (hay.data.drop i)

/-- Python `str.strip(chars)`. -/
def pyStripChars (s chars : String) : String :=
  let inChars := fun c => chars.data.contains c
  String.mk ((s.data.dropWhile inChars).reverse.dropWhile inChars).reverse

/-- Python `str.title()` (ASCII case mapping). -/
def pyTitle (s : String) : String :=
  (s.data.foldl
    (fun (acc : String × Bool) c =>
      if c.isAlpha then
        (acc.1.push (if acc.2 then c.toLower else c.toUpper), true)
      else (acc.1.push c, false))
    ("", false)).1

/-- `apply_binary_op` with `__add__` (direct, reflected, `operator.add`):
`AttributeError` models a missing reflected method. -/
def pyAdd (a b : Val) : PyResult Val :=
  match asNum? a, asNum? b with
  | some x, some y => .ok (.int (x + y))
  | _, _ =>
    match a, b with
    | .str s, .str t => .ok (.str (s ++ t))
    | .str _, _ => .error .typeErr
    | .list xs, .list ys => .ok (.list (xs ++ ys))
    | .list _, _ => .error .typeErr
    | _, _ => .error .attrErr

/-- `apply_binary_op` with `__sub__`. -/
def pySub (a b : Val) : PyResult Val :=
  match asNum? a, asNum? b with
  | some x, some y => .ok (.int (x - y))
  | _, _ => .error .attrErr

/-- Repeat a string `n` times (Python sequence repetition). -/
def strRepeat (s : String) (n : Int) : String :=
  String.mk (List.flatten (List.replicate n.toNat s.data))

/-- `apply_binary_op` with `__mul__` (including Python sequence
repetition). -/
def pyMul (a b : Val) : PyResult Val :=
  match asNum? a, asNum? b with
  | some x, some y => .ok (.int (x * y))
  | _, _ =>
    match a, b with
    | .str s, b' =>
        match asNum? b' with
        | some n => .ok (.str (strRepeat s n))
        | Option.none => .error .typeErr
    | .list xs, b' =>
        match asNum? b' with
        | some n => .ok (.list (List.flatten (List.replicate n.toNat xs)))
        | Option.none => .error .typeErr
    | a', .str s =>
        match asNum? a' with
        | some n => .ok (.str (strRepeat s n))
        | Option.none => .error .attrErr
    | a', .list xs =>
        match asNum? a' with
        | some n => .ok (.list (List.flatten (List.replicate n.toNat xs)))
        | Option.none => .error .attrErr
    | _, _ => .error .attrErr

/-- `apply_binary_op` with `__mod__` (Python floor-sign modulo; the
format-string meaning of `%` on strings is simplified to `TypeError`). -/
def pyMod (a b : Val) : PyResult Val :=
  match asNum? a, asNum? b with
  | some x, some y =>
      if y = 0 then .error .zeroDivErr else .ok (.int (Int.fmod x y))
  | _, _ =>
    match a with
    | .str _ => .error .typeErr
    | _ => .error .attrErr

/-- Python builtin `int()`. -/
def pyIntCoerce (v : Val) : PyResult Val :=
  match v with
  | .int n => .ok (.int n)
  | .bool b => .ok (.int (if b then 1 else 0))
  | .str s =>
      match pyParseInt s with
      | some n => .ok (.int n)
      | Option.none => .error .valueErr
  | _ => .error .typeErr

/-- Error behaviour of Python `float()` on the embedded universe: numbers
and (possibly numeric) strings leave the universe (`unmodeled`), the rest
raise `TypeError`. -/
def pyFloatProbe (v : Val) : PyResult Unit :=
  match v with
  | .none => .error .typeErr
  | .list _ => .error .typeErr
  | .dict _ => .error .typeErr
  | .str _ => .error .unmodeled
  | _ => .ok ()

/-- Python `len()`. -/
def pyLen (v : Val) : PyResult Nat :=
  match v with
  | .str s => .ok s.length
  | .list xs => .ok xs.length
  | .dict xs => .ok xs.length
  | _ => .error .typeErr

/-- `has_len_zero` (errors swallowed to `false`). -/
def hasLenZero (v : Val) : Bool :=
  match pyLen v with
  | .ok n => n == 0
  | .error _ => false

/-- Python `in` (`__contains__`): substring test on strings, `==`-based
membership on lists, key membership on dicts (unhashable probes raise). -/
def pyContains (container needle : Val) : PyResult Bool :=
  match container with
  | .str s =>
      match needle with
      | .str n => .ok (strContains s n)
      | _ => .error .typeErr
  | .list xs => .ok (xs.any (pyEq · needle))
  | .dict d =>
      match needle with
      | .str k => .ok (dictContains d k)
      | .list _ => .error .typeErr
      | .dict _ => .error .typeErr
      | _ => .ok false
  | _ => .error .typeErr

/-- Python two-argument `max` (first argument wins ties). -/
def pyMax2 (a b : Val) : PyResult Val := do
  let o ← pyOrd b a
  .ok (if o = .gt then b else a)

/-- Python two-argument `min` (first argument wins ties). -/
def pyMin2 (a b : Val) : PyResult Val := do
  let o ← pyOrd b a
  .ok (if o = .lt then b else a)

/-- Python `max(list)`: first maximal element; empty raises `ValueError`. -/
def pyMaxList : List Val → PyResult Val
  | [] => .error .valueErr
  | x :: xs =>
      xs.foldlM (fun best y => do
        let o ← pyOrd y best
        pure (if o = .gt then y else best)) x

/-- Python `min(list)`. -/
def pyMinList : List Val → PyResult Val
  | [] => .error .valueErr
  | x :: xs =>
      xs.foldlM (fun best y => do
        let o ← pyOrd y best
        pure (if o = .lt then y else best)) x

/-- Python `sum(list)` (starts from `0`; non-numeric elements raise
`TypeError`). -/
def pySumList (xs : List Val) : PyResult Val :=
  (xs.foldlM (fun (acc : Int) (y : Val) =>
    match asNum? y with
    | some n => (.ok (acc + n) : PyResult Int)
    | Option.none => .error .typeErr) 0).map Val.int

/-- Error behaviour of `collect_numeric_sequence`'s per-element `float()`
conversions. -/
def collectNumericProbe : List Val → PyResult Unit
  | [] => .ok ()
  | x :: xs => do
      pyFloatProbe x
      collectNumericProbe xs

/-- Python `pow` on the embedded universe: integer results only; negative
exponents leave the universe. -/
def pyPow (a b : Val) : PyResult Val :=
  match asNum? a, asNum? b with
  | some x, some y =>
      if y ≥ 0 then .ok (.int (x ^ y.toNat))
      else if x = 0 then .error .zeroDivErr
      else .error .unmodeled
  | _, _ => .error .typeErr

/-- `dict.fromkeys`-based dedup of `unique` (first occurrence wins;
unhashable elements raise `TypeError`). -/
def pyUniqueList (xs : List Val) : PyResult (List Val) :=
  xs.foldlM (fun acc y =>
    match y with
    | .list _ => .error .typeErr
    | .dict _ => .error .typeErr
    | _ => .ok (if acc.any (pyEq · y) then acc else acc ++ [y])) []

/-- Stable insertion for `sorted` (`desc = false`: place before the first
strictly greater element; `desc = true`: before the first strictly smaller
one). -/
def pyInsertSorted (desc : Bool) (x : Val) : List Val → PyResult (List Val)
  | [] => .ok [x]
  | y :: ys => do
      let o ← pyOrd y x
      if (if desc then o = .lt else o = .gt) then .ok (x :: y :: ys)
      else do
        let rest ← pyInsertSorted desc x ys
        .ok (y :: rest)

/-- Python `sorted` (stable, `<`-driven). -/
def pySorted (desc : Bool) (xs : List Val) : PyResult (List Val) :=
  xs.foldlM (fun acc y => pyInsertSorted desc y acc) []

/-- `mode`: first element with the maximal `==`-count. -/
def pyModeList (xs : List Val) : Val :=
  (xs.foldl
    (fun (acc : Val × Nat) cand =>
      let count := (xs.filter (fun item => pyEq item cand)).length
      if count > acc.2 then (cand, count) else acc)
    (.none, 0)).1

/-- Python type names as reported by `type(x).__name__`. -/
def pyTypeName : Val → String
  | .none => "NoneType"
  | .bool _ => "bool"
  | .int _ => "int"
  | .str _ => "str"
  | .list _ => "list"
  | .dict _ => "dict"

/-- The `BuiltinFilter` enum of the source; arguments are already-parsed
values. -/
inductive BuiltinFilter where
  | inc
  | dec
  | double
  | square
  | string
  | int
  | float
  | decimal
  | quote
  | even
  | odd
  | gt (x : Val)
  | lt (x : Val)
  | gte (x : Val)
  | lte (x : Val)
  | add (x : Val)
  | sub (x : Val)
  | mul (x : Val)
  | div (x : Val)
  | mod (x : Val)
  | neg
  | pow (x : Val)
  | rpow (x : Val)
  | sqrt
  | root (x : Val)
  | round (x : Option Val)
  | floor
  | ceil
  | max
  | min
  | len
  | pick (keys : List Val)
  | unpick (keys : List Val)
  | abs
  | clamp (lo hi : Val)
  | sign
  | log (x : Option Val)
  | exp
  | pct (x : Val)
  | pctile (x : Val)
  | median
  | q1
  | q3
  | iqr
  | mode
  | stdev
  | between (lo hi : Val)
  | sum
  | avg
  | unique
  | sorted (x : Option Val)
  | first
  | last
  | contains (x : Val)
  | isIn (x : Val)
  | lower
  | upper
  | title
  | strip (x : Option Val)
  | replace (old new : Val)
  | split (x : Option Val)
  | join (x : Val)
  | startswith (x : Val)
  | endswith (x : Val)
  | matches (x : Val)
  | default (x : Val)
  | coalesce (xs : List Val)
  | bool
  | typeIs (x : Val)
  | isEmpty
  | nonEmpty
  | toDatetime (x : Option Val)
  | timestamp
  | ageSeconds
  | before (x : Val)
  | after (x : Val)

/-- `BuiltinFilterStep` (`map_suffix` is the trailing `[]`). -/
structure BuiltinFilterStep where
  filter : BuiltinFilter
  mapSuffix : Bool

abbrev BuiltinFilterPipeline := List BuiltinFilterStep

/-- `even`/`odd` shared body: non-ints are `false`, otherwise `value % 2`
is compared with the expected remainder. -/
def evenOddCheck (v : Val) (expected : Int) : PyResult Val :=
  if !v.isNum then .ok (.bool false)
  else do
    let rem ← pyMod v (.int 2)
    .ok (.bool (pyEq rem (.int expected)))

/-- `apply_builtin_filter`: one filter applied to one value.  The filters
whose results are floats, datetimes or regex matches surface `unmodeled`
(a hard error) after reproducing the checks the source performs before
leaving the embedded universe. -/
def applyBuiltinFilter (v : Val) (f : BuiltinFilter) : PyResult Val :=
  match f with
  | .inc => pyAdd v (.int 1)
  | .dec => pySub v (.int 1)
  | .double => pyMul v (.int 2)
  | .square => pyMul v v
  | .string => .ok (.str (pyStr v))
  | .int => pyIntCoerce v
  | .float => do
      pyFloatProbe v
      .error .unmodeled
  | .decimal => do
      pyFloatProbe v
      .error .unmodeled
  | .quote => .ok (.str ("\"" ++ pyStr v ++ "\""))
  | .even => evenOddCheck v 0
  | .odd => evenOddCheck v 1
  | .gt x => (compareWithFallback v x ">").map Val.bool
  | .lt x => (compareWithFallback v x "<").map Val.bool
  | .gte x => (compareWithFallback v x ">=").map Val.bool
  | .lte x => (compareWithFallback v x "<=").map Val.bool
  | .add x => pyAdd v x
  | .sub x => pySub v x
  | .mul x => pyMul v x
  | .div x =>
      if pyEq x (.int 0) then .ok .none
      else .error .unmodeled
  | .mod x =>
      if pyEq x (.int 0) then .ok .none
      else pyMod v x
  | .neg =>
      match asNum? v with
      | some n => .ok (.int (-n))
      | Option.none => .error .attrErr
  | .pow e => pyPow v e
  | .rpow b => pyPow b v
  | .sqrt => do
      let isNeg ← compareWithFallback v (.int 0) "<"
      if isNeg then .ok .none
      else if v.isNum then .error .unmodeled
      else .error .typeErr
  | .root d => do
      let isNeg ← compareWithFallback v (.int 0) "<"
      let dBad ← compareWithFallback d (.int 0) "<="
      if isNeg || dBad then .ok .none
      else if !d.isNum then .error .attrErr
      else if !v.isNum then .error .typeErr
      else .error .unmodeled
  | .round nd =>
      if !v.isNum then .error .attrErr
      else
        match nd with
        | Option.none => .ok (.int ((asNum? v).getD 0))
        | some ndv =>
            match asNum? ndv with
            | some n =>
                if n ≥ 0 then .ok (.int ((asNum? v).getD 0))
                else .error .unmodeled
            | Option.none => .error .typeErr
  | .floor =>
      match asNum? v with
      | some n => .ok (.int n)
      | Option.none => .error .typeErr
  | .ceil =>
      match asNum? v with
      | some n => .ok (.int n)
      | Option.none => .error .typeErr
  | .max =>
      match v with
      | .list xs => pyMaxList xs
      | _ => .ok v
  | .min =>
      match v with
      | .list xs => pyMinList xs
      | _ => .ok v
  | .len => (pyLen v).map (fun n => .int n)
  | .pick keys =>
      match v with
      | .dict d =>
          .ok (.dict (keys.foldl (fun acc k =>
            match k with
            | .str s =>
                match dictGet d s with
                | some w => dictSet acc s w
                | Option.none => acc
            | _ => acc) []))
      | _ => .ok .none
  | .unpick keys =>
      match v with
      | .dict d =>
          .ok (.dict (d.filter (fun kv =>
            !(keys.any (fun cand => pyEq (.str kv.1) cand)))))
      | _ => .ok .none
  | .abs =>
      match asNum? v with
      | some n => .ok (.int n.natAbs)
      | Option.none => .error .typeErr
  | .clamp lo hi => do
      let m ← pyMax2 lo v
      pyMin2 hi m
  | .sign => do
      let isGt ← compareWithFallback v (.int 0) ">"
      let isLt ← compareWithFallback v (.int 0) "<"
      .ok (.int ((if isGt then 1 else 0) - (if isLt then 1 else 0)))
  | .log base? =>
      match base? with
      | Option.none => do
          let pos ← compareWithFallback v (.int 0) ">"
          if !pos then .ok .none else .error .unmodeled
      | some b => do
          let pos ← compareWithFallback v (.int 0) ">"
          let bpos ← compareWithFallback b (.int 0) ">"
          let bone ← compareWithFallback b (.int 1) "=="
          if !pos || !bpos || bone then .ok .none else .error .unmodeled
  | .exp => if v.isNum then .error .unmodeled else .error .typeErr
  | .pct x => do
      pyFloatProbe x
      pyFloatProbe v
      .error .unmodeled
  | .pctile _ =>
      match v with
      | .list xs =>
          if xs.isEmpty then .ok .none
          else do
            collectNumericProbe xs
            .error .unmodeled
      | _ => .ok v
  | .median =>
      match v with
      | .list xs =>
          if xs.isEmpty then .ok .none
          else do
            collectNumericProbe xs
            .error .unmodeled
      | _ => .ok v
  | .q1 =>
      match v with
      | .list xs =>
          if xs.isEmpty then .ok .none
          else do
            collectNumericProbe xs
            .error .unmodeled
      | _ => .ok v
  | .q3 =>
      match v with
      | .list xs =>
          if xs.isEmpty then .ok .none
          else do
            collectNumericProbe xs
            .error .unmodeled
      | _ => .ok v
  | .iqr =>
      match v with
      | .list xs =>
          if xs.isEmpty then .ok .none
          else do
            collectNumericProbe xs
            .error .unmodeled
      | _ => .ok v
  | .mode =>
      match v with
      | .list xs =>
          if xs.isEmpty then .ok .none
          else .ok (pyModeList xs)
      | _ => .ok v
  | .stdev =>
      match v with
      | .list xs =>
          if xs.isEmpty then .ok .none
          else do
            collectNumericProbe xs
            .error .unmodeled
      | _ => .ok v
  | .between lo hi => do
      let geMin ← compareWithFallback v lo ">="
      let leMax ← compareWithFallback v hi "<="
      .ok (.bool (geMin && leMax))
  | .sum =>
      match v with
      | .list xs => pySumList xs
      | _ => .ok v
  | .avg =>
      match v with
      | .list xs =>
          if xs.isEmpty then .ok .none
          else do
            let _ ← pySumList xs
            .error .unmodeled
      | _ => .ok v
  | .unique =>
      match v with
      | .list xs => (pyUniqueList xs).map Val.list
      | _ => .ok v
  | .sorted rev? =>
      match v with
      | .list xs =>
          let desc := match rev? with
            | some r => pyTruthy r
            | Option.none => false
          (pySorted desc xs).map Val.list
      | _ => .ok v
  | .first =>
      match v with
      | .list xs =>
          match xs with
          | [] => .ok .none
          | x :: _ => .ok x
      | _ => .ok v
  | .last =>
      match v with
      | .list xs =>
          match xs.getLast? with
          | some x => .ok x
          | Option.none => .ok .none
      | _ => .ok v
  | .contains x => (pyContains v x).map Val.bool
  | .isIn x => (pyContains x v).map Val.bool
  | .lower => .ok (.str (strToLower (pyStr v)))
  | .upper => .ok (.str (strToUpper (pyStr v)))
  | .title => .ok (.str (pyTitle (pyStr v)))
  | .strip chars? =>
      match chars? with
      | Option.none => .ok (.str (strTrim (pyStr v)))
      | some c =>
          match c with
          | .str cs => .ok (.str (pyStripChars (pyStr v) cs))
          | _ => .error .typeErr
  | .replace old new =>
      match old, new with
      | .str o, .str n => .ok (.str (strReplace (pyStr v) o n))
      | _, _ => .error .typeErr
  | .split sep? =>
      match sep? with
      | Option.none =>
          .ok (.list ((strSplitWhitespace (pyStr v)).map Val.str))
      | some sep =>
          match sep with
          | .str s =>
              if s = "" then .error .valueErr
              else .ok (.list ((strSplitOn (pyStr v) s).map Val.str))
          | _ => .error .typeErr
  | .join sep =>
      match v with
      | .list xs =>
          .ok (.str (strIntercalate (pyStr sep) (xs.map pyStr)))
      | _ => .ok (.str (pyStr v))
  | .startswith p =>
      match p with
      | .str ps => .ok (.bool (strStartsWith (pyStr v) ps))
      | _ => .error .typeErr
  | .endswith p =>
      match p with
      | .str ps => .ok (.bool (strEndsWith (pyStr v) ps))
      | _ => .error .typeErr
  | .matches p =>
      match p with
      | .str _ => .error .unmodeled
      | _ => .error .typeErr
  | .default d =>
      match v with
      | .none => .ok d
      | _ => .ok v
  | .coalesce xs =>
      match v with
      | .none =>
          match xs.find? (fun x => x ≠ Val.none) with
          | some x => .ok x
          | Option.none => .ok .none
      | _ => .ok v
  | .bool =>
      match v with
      | .str s =>
          .ok (.bool (["1", "true", "yes", "y", "on"].contains
            (strToLower (strTrim s))))
      | _ => .ok (.bool (pyTruthy v))
  | .typeIs name =>
      .ok (.bool (strToLower (pyTypeName v) == strToLower (pyStr name)))
  | .isEmpty => .ok (.bool (v == Val.none || hasLenZero v))
  | .nonEmpty => .ok (.bool (!(v == Val.none || hasLenZero v)))
  | .toDatetime _ =>
      match v with
      | .int _ => .error .unmodeled
      | .bool _ => .error .unmodeled
      | .str _ => .error .unmodeled
      | _ => .ok .none
  | .timestamp =>
      match v with
      | .int _ => .error .unmodeled
      | .bool _ => .error .unmodeled
      | .str _ => .error .unmodeled
      | _ => .ok .none
  | .ageSeconds =>
      match v with
      | .int _ => .error .unmodeled
      | .bool _ => .error .unmodeled
      | .str _ => .error .unmodeled
      | _ => .ok .none
  | .before _ =>
      match v with
      | .int _ => .error .unmodeled
      | .bool _ => .error .unmodeled
      | .str _ => .error .unmodeled
      | _ => .ok (.bool false)
  | .after _ =>
      match v with
      | .int _ => .error .unmodeled
      | .bool _ => .error .unmodeled
      | .str _ => .error .unmodeled
      | _ => .ok (.bool false)

/-- One element pushed through a run of consecutive map-suffix steps. -/
def applyFilterRun (fs : List BuiltinFilterStep) (v : Val) : PyResult Val :=
  fs.foldlM (fun acc step => applyBuiltinFilter acc step.filter) v

/-- `apply_builtin_pipeline`, fuelled so that evaluation is structural: a
map-suffix step meeting a list fans the whole consecutive map-suffix run
out element-wise; otherwise the step applies directly.  Each loop
iteration consumes at least one step, so `fuel = pipeline.length` never
runs out. -/
def applyBuiltinPipelineAux : Nat → Val → BuiltinFilterPipeline → PyResult Val
  | _, v, [] => .ok v
  | 0, _, _ :: _ => .error .unmodeled
  | f + 1, v, step :: rest =>
      match v, step.mapSuffix with
      | .list xs, true =>
          let run := step :: rest.takeWhile (·.mapSuffix)
          let after := rest.dropWhile (·.mapSuffix)
          do
            let mapped ← xs.mapM (applyFilterRun run)
            applyBuiltinPipelineAux f (.list mapped) after
      | _, _ => do
          let v' ← applyBuiltinFilter v step.filter
          applyBuiltinPipelineAux f v' rest

def applyBuiltinPipeline (v : Val) (pipeline : BuiltinFilterPipeline) :
    PyResult Val :=
  applyBuiltinPipelineAux pipeline.length v pipeline

/-- A strict GET against the root, as performed by
`resolve_root_reference_value` through the backend; the walkers receive it
as a closure to model the source's re-entrant engine calls. -/
abbrev RootGet := String → PyResult Val

/-- The path translation of `resolve_root_reference_value`:
`$$root → "."`, `$$root.<p> → <p>`, `$$root|<f> → ".|<f>"`, anything else
is a parse error. -/
def rootRefPath (s : String) : Option String :=
  if s = "$$root" then some "."
  else if strStartsWith s "$$root." then some (strDrop s 7)
  else if strStartsWith s "$$root|" then some (".|" ++ strDrop s 7)
  else Option.none

/-- `split_raw_path_tokens`: split on `.` at bracket depth 0 (depth clamped
at 0 on surplus `]`). -/
def splitRawPathTokensAux : List Char → Nat → String → List String
  | [], _, cur => [cur]
  | c :: rest, depth, cur =>
      if c = '[' then splitRawPathTokensAux rest (depth + 1) (cur.push c)
      else if c = ']' then splitRawPathTokensAux rest (depth - 1) (cur.push c)
      else if c = '.' && depth = 0 then
        cur :: splitRawPathTokensAux rest depth ""
      else splitRawPathTokensAux rest depth (cur.push c)

def splitRawPathTokens (path : String) : List String :=
  splitRawPathTokensAux path.data 0 ""

/-- `split_path_and_transform`: split at the first depth-0 `|` that is
immediately followed by `$`; the transform keeps its leading `$`. -/
def splitPathAndTransformAux : List Char → Nat → String →
    Option (String × String)
  | [], _, _ => Option.none
  | c :: rest, depth, acc =>
      if c = '[' then splitPathAndTransformAux rest (depth + 1) (acc.push c)
      else if c = ']' then splitPathAndTransformAux rest (depth - 1) (acc.push c)
      else if c = '|' && depth = 0 && rest.head? = some '$' then
        some (acc, String.mk rest)
      else splitPathAndTransformAux rest depth (acc.push c)

def splitPathAndTransform (path : String) : String × Option String :=
  match splitPathAndTransformAux path.data 0 "" with
  | some (base, transform) => (base, some transform)
  | Option.none => (path, Option.none)

/-- `ParsedToken`'s `TokenKind`. -/
inductive TokenKind where
  | root
  | wildcard
  | deepWildcard
  | map (key : String)
  | get (key : String)
  | index (key : String) (i : Int)
  | slice (key : String) (start stop : Option Int)
  | filter (listKey field operator value : String)
deriving DecidableEq

/-- Split a string at its last `[`, returning the prefix and the part after
the bracket. -/
def splitAtLastBracket (s : String) : Option (String × String) :=
  let idx := s.data.reverse.findIdx? (· = '[')
  match idx with
  | some revPos =>
      let pos := s.length - 1 - revPos
      some (String.mk (s.data.take pos), String.mk (s.data.drop (pos + 1)))
  | Option.none => Option.none

/-- `-?\d+` -/
def matchesSignedInt (s : String) : Bool :=
  let body := if strStartsWith s "-" then strDrop s 1 else s
  !(strIsEmpty body) && body.data.all Char.isDigit

/-- `-?\d*` -/
def matchesOptSignedDigits (s : String) : Bool :=
  let body := if strStartsWith s "-" then strDrop s 1 else s
  body.data.all Char.isDigit

/-- A group matched by `-?\d*`, run through `str::parse::<isize>` with
failures collapsed to `None` (so `""` and a bare `-` give `None`). -/
def parseSliceBound (s : String) : Option Int :=
  strToIntSigned s

/-- `INDEX_RE` = `^(.+)\[(-?\d+)\]$` (the inner group excludes brackets, so
only the last `[` can match). -/
def matchIndexRe (s : String) : Option (String × Int) :=
  if !strEndsWith s "]" then Option.none
  else
    match splitAtLastBracket (strDropRight s 1) with
    | some (key, inner) =>
        if !(strIsEmpty key) && matchesSignedInt inner then
          strToIntSigned inner |>.map (fun i => (key, i))
        else Option.none
    | Option.none => Option.none

/-- `SLICE_RE` = `^(.+)\[(-?\d*):(-?\d*)\]$`. -/
def matchSliceRe (s : String) : Option (String × Option Int × Option Int) :=
  if !strEndsWith s "]" then Option.none
  else
    match splitAtLastBracket (strDropRight s 1) with
    | some (key, inner) =>
        match strSplitOn inner ":" with
        | [a, b] =>
            if !(strIsEmpty key) && matchesOptSignedDigits a &&
                matchesOptSignedDigits b then
              some (key, parseSliceBound a, parseSliceBound b)
            else Option.none
        | _ => Option.none
    | Option.none => Option.none

/-- The operator alternation of `FILTER_RE` tried at the head of `chars`,
in the regex's order `==, !=, >=, <=, >, <`. -/
def matchOperatorAt (chars : List Char) : Option (String × List Char) :=
  match chars with
  | '=' :: '=' :: rest => some ("==", rest)
  | '!' :: '=' :: rest => some ("!=", rest)
  | '>' :: '=' :: rest => some (">=", rest)
  | '<' :: '=' :: rest => some ("<=", rest)
  | '>' :: rest => some (">", rest)
  | '<' :: rest => some ("<", rest)
  | _ => Option.none

/-- Split `field OP value` as the lazy groups `(.+?)(op)(.+?)` do: the
leftmost operator position wins (two-character operators first at a given
position), and both field and value must be non-empty. -/
def findOpSplitAux (field : String) : List Char →
    Option (String × String × String)
  | [] => Option.none
  | c :: rest =>
      if strIsEmpty field then findOpSplitAux (field.push c) rest
      else
        match matchOperatorAt (c :: rest) with
        | some (op, after) =>
            if after.isEmpty then
              match matchOperatorAt [c] with
              | some (op1, _) =>
                  if rest.isEmpty then findOpSplitAux (field.push c) rest
                  else some (field, op1, String.mk rest)
              | Option.none => findOpSplitAux (field.push c) rest
            else some (field, op, String.mk after)
        | Option.none => findOpSplitAux (field.push c) rest

def findOpSplit (s : String) : Option (String × String × String) :=
  findOpSplitAux "" s.data

/-- All positions (ascending) where `[?` occurs. -/
def bracketQuestionPositions (s : String) : List Nat :=
  (List.range s.length).filter fun i =>
    decide ((s.data.drop i).take 2 = ['[', '?'])

/-- `FILTER_RE` = `^(.+)\[\?(.+?)(==|!=|>=|<=|>|<)(.+?)\]$`: the list key is
greedy (latest viable `[?`), field/value are lazy. -/
def matchFilterRe (s : String) : Option (String × String × String × String) :=
  if !strEndsWith s "]" then Option.none
  else
    let body := strDropRight s 1
    (bracketQuestionPositions body).reverse.firstM fun p =>
      if p = 0 then Option.none
      else
        let key := String.mk (body.data.take p)
        let inner := String.mk (body.data.drop (p + 2))
        match findOpSplit inner with
        | some (f, op, v) => some (key, f, op, v)
        | Option.none => Option.none

/-- `parse_token`: classify one raw segment. -/
def parseToken (raw : String) : TokenKind :=
  if raw = "$$root" then .root
  else if raw = "*" then .wildcard
  else if raw = "**" then .deepWildcard
  else if strEndsWith raw "[]" then .map (strDropRight raw 2)
  else
    match matchIndexRe raw with
    | some (key, i) => .index key i
    | Option.none =>
        match matchSliceRe raw with
        | some (key, a, b) => .slice key a b
        | Option.none =>
            match matchFilterRe raw with
            | some (lk, f, op, v) => .filter lk f op v
            | Option.none => .get raw

/-- `split_filter_args`: split at top-level commas honouring `()[]{}`
nesting, quotes and backslash escapes. -/
def splitFilterArgsAux : List Char → Int → Int → Int → Bool → Bool → Bool →
    String → List String → String → Option (List String)
  | [], paren, bracket, brace, inS, inD, _esc, cur, out, whole =>
      if inS || inD || paren ≠ 0 || bracket ≠ 0 || brace ≠ 0 then Option.none
      else if strTrim cur ≠ "" then some (out ++ [strTrim cur])
      else if strTrim whole ≠ "" then Option.none
      else some out
  | c :: rest, paren, bracket, brace, inS, inD, esc, cur, out, whole =>
      if esc then
        splitFilterArgsAux rest paren bracket brace inS inD false (cur.push c)
          out whole
      else if c = '\\' then
        splitFilterArgsAux rest paren bracket brace inS inD true (cur.push c)
          out whole
      else if inS then
        splitFilterArgsAux rest paren bracket brace (c ≠ '\'') inD false
          (cur.push c) out whole
      else if inD then
        splitFilterArgsAux rest paren bracket brace inS (c ≠ '"') false
          (cur.push c) out whole
      else if c = '\'' then
        splitFilterArgsAux rest paren bracket brace true inD false (cur.push c)
          out whole
      else if c = '"' then
        splitFilterArgsAux rest paren bracket brace inS true false (cur.push c)
          out whole
      else if c = '(' then
        splitFilterArgsAux rest (paren + 1) bracket brace inS inD false
          (cur.push c) out whole
      else if c = ')' then
        if paren - 1 < 0 then Option.none
        else
          splitFilterArgsAux rest (paren - 1) bracket brace inS inD false
            (cur.push c) out whole
      else if c = '[' then
        splitFilterArgsAux rest paren (bracket + 1) brace inS inD false
          (cur.push c) out whole
      else if c = ']' then
        if bracket - 1 < 0 then Option.none
        else
          splitFilterArgsAux rest paren (bracket - 1) brace inS inD false
            (cur.push c) out whole
      else if c = '{' then
        splitFilterArgsAux rest paren bracket (brace + 1) inS inD false
          (cur.push c) out whole
      else if c = '}' then
        if brace - 1 < 0 then Option.none
        else
          splitFilterArgsAux rest paren bracket (brace - 1) inS inD false
            (cur.push c) out whole
      else if c = ',' && paren = 0 && bracket = 0 && brace = 0 then
        splitFilterArgsAux rest paren bracket brace inS inD false ""
          (out ++ [strTrim cur]) whole
      else
        splitFilterArgsAux rest paren bracket brace inS inD false (cur.push c)
          out whole

def splitFilterArgs (args : String) : Option (List String) :=
  splitFilterArgsAux args.data 0 0 0 false false false "" [] args

/-- `parse_filter_args`: each comma-separated token is either a `$$root`
reference resolved against the root (compilation fails without a root, or
when the strict GET fails) or a parsed literal. -/
def parseFilterArgs (sg? : Option RootGet) (args : String) :
    Option (List Val) := do
  let tokens ← splitFilterArgs args
  tokens.mapM fun tok =>
    if strStartsWith tok "$$root" then do
      let sg ← sg?
      let p ← rootRefPath tok
      (sg p).toOption
    else
      some (parseLiteral tok)

/-- `compile_builtin_filter`: the fixed name/arity table. -/
def compileBuiltinFilter (name : String) (args : List Val) :
    Option BuiltinFilter :=
  match name, args with
  | "inc", [] => some .inc
  | "dec", [] => some .dec
  | "double", [] => some .double
  | "square", [] => some .square
  | "string", [] => some .string
  | "int", [] => some .int
  | "float", [] => some .float
  | "decimal", [] => some .decimal
  | "round", [] => some (.round Option.none)
  | "round", [x] => some (.round (some x))
  | "floor", [] => some .floor
  | "ceil", [] => some .ceil
  | "quote", [] => some .quote
  | "even", [] => some .even
  | "odd", [] => some .odd
  | "neg", [] => some .neg
  | "pow", [x] => some (.pow x)
  | "rpow", [x] => some (.rpow x)
  | "sqrt", [] => some .sqrt
  | "root", [x] => some (.root x)
  | "max", [] => some .max
  | "min", [] => some .min
  | "len", [] => some .len
  | "pick", _ => some (.pick args)
  | "unpick", _ => some (.unpick args)
  | "abs", [] => some .abs
  | "clamp", [a, b] => some (.clamp a b)
  | "sign", [] => some .sign
  | "log", [] => some (.log Option.none)
  | "log", [x] => some (.log (some x))
  | "exp", [] => some .exp
  | "pct", [x] => some (.pct x)
  | "pctile", [x] => some (.pctile x)
  | "median", [] => some .median
  | "q1", [] => some .q1
  | "q3", [] => some .q3
  | "iqr", [] => some .iqr
  | "mode", [] => some .mode
  | "stdev", [] => some .stdev
  | "between", [a, b] => some (.between a b)
  | "sum", [] => some .sum
  | "avg", [] => some .avg
  | "unique", [] => some .unique
  | "sorted", [] => some (.sorted Option.none)
  | "sorted", [x] => some (.sorted (some x))
  | "first", [] => some .first
  | "last", [] => some .last
  | "contains", [x] => some (.contains x)
  | "in", [x] => some (.isIn x)
  | "lower", [] => some .lower
  | "upper", [] => some .upper
  | "title", [] => some .title
  | "strip", [] => some (.strip Option.none)
  | "strip", [x] => some (.strip (some x))
  | "replace", [a, b] => some (.replace a b)
  | "split", [] => some (.split Option.none)
  | "split", [x] => some (.split (some x))
  | "join", [x] => some (.join x)
  | "startswith", [x] => some (.startswith x)
  | "endswith", [x] => some (.endswith x)
  | "matches", [x] => some (.matches x)
  | "default", [x] => some (.default x)
  | "coalesce", _ => if args.length ≥ 1 then some (.coalesce args) else Option.none
  | "bool", [] => some .bool
  | "type_is", [x] => some (.typeIs x)
  | "is_empty", [] => some .isEmpty
  | "non_empty", [] => some .nonEmpty
  | "to_datetime", [] => some (.toDatetime Option.none)
  | "to_datetime", [x] => some (.toDatetime (some x))
  | "timestamp", [] => some .timestamp
  | "age_seconds", [] => some .ageSeconds
  | "before", [x] => some (.before x)
  | "after", [x] => some (.after x)
  | "gt", [x] => some (.gt x)
  | "lt", [x] => some (.lt x)
  | "gte", [x] => some (.gte x)
  | "lte", [x] => some (.lte x)
  | "add", [x] => some (.add x)
  | "sub", [x] => some (.sub x)
  | "mul", [x] => some (.mul x)
  | "div", [x] => some (.div x)
  | "mod", [x] => some (.mod x)
  | _, _ => Option.none

/-- `PATH_FILTER_SEGMENT_RE` = `^\$([a-zA-Z_]\w*)(?:\((.*)\))?(\[\])?$`. -/
def matchFilterSegment (seg : String) : Option (String × Option String × Bool) :=
  if !strStartsWith seg "$" then Option.none
  else
    let rest0 := strDrop seg 1
    let name := String.mk (rest0.data.takeWhile fun c =>
      c.isAlphanum || c = '_')
    if strIsEmpty name then Option.none
    else
      match name.data.head? with
      | some c0 =>
          if !(c0.isAlpha || c0 = '_') then Option.none
          else
            let rest := strDrop rest0 name.length
            if rest = "" then some (name, Option.none, false)
            else if rest = "[]" then some (name, Option.none, true)
            else if strStartsWith rest "(" && strEndsWith rest ")[]" &&
                rest.length ≥ 4 then
              some (name, some (strDropRight (strDrop rest 1) 3), true)
            else if strStartsWith rest "(" && strEndsWith rest ")" &&
                rest.length ≥ 2 then
              some (name, some (strDropRight (strDrop rest 1) 1), false)
            else Option.none
      | Option.none => Option.none

/-- `compile_builtin_pipeline`: `|`-split segments, each matched against
the segment shape and looked up in the filter table. -/
def compileBuiltinPipeline (sg? : Option RootGet) (expr : String) :
    Option BuiltinFilterPipeline :=
  if !strStartsWith expr "$" then Option.none
  else
    (strSplitOn expr "|").mapM fun seg => do
      let (name, args?, suffix) ← matchFilterSegment seg
      let args ←
        match args? with
        | some a => parseFilterArgs sg? a
        | Option.none => pure []
      let f ← compileBuiltinFilter name args
      pure (⟨f, suffix⟩ : BuiltinFilterStep)

/-- `PredicateExpr`: the boolean sub-language over pipelines. -/
inductive PredicateExpr where
  | pipeline (p : BuiltinFilterPipeline)
  | pnot (e : PredicateExpr)
  | pand (l r : PredicateExpr)
  | por (l r : PredicateExpr)

/-- Inner operand scan of `tokenize_boolean_filter_expression`: consume
until a depth-0 `&&`, `||`, `!` or an unmatched `)`. -/
def scanPredOperand : List Char → Nat → String → String × List Char
  | [], _, acc => (acc, [])
  | c :: rest, depth, acc =>
      if c = '(' then scanPredOperand rest (depth + 1) (acc.push c)
      else if c = ')' then
        if depth = 0 then (acc, c :: rest)
        else scanPredOperand rest (depth - 1) (acc.push c)
      else if depth = 0 && c = '&' && rest.head? = some '&' then
        (acc, c :: rest)
      else if depth = 0 && c = '|' && rest.head? = some '|' then
        (acc, c :: rest)
      else if depth = 0 && c = '!' then (acc, c :: rest)
      else scanPredOperand rest depth (acc.push c)

/-- `tokenize_boolean_filter_expression` (fuelled outer loop; each
iteration consumes at least one character). -/
def tokenizePredAux : Nat → List Char → List String
  | 0, _ => []
  | _, [] => []
  | f + 1, c :: rest =>
      if c.isWhitespace then tokenizePredAux f rest
      else if c = '&' && rest.head? = some '&' then
        "&&" :: tokenizePredAux f (rest.drop 1)
      else if c = '|' && rest.head? = some '|' then
        "||" :: tokenizePredAux f (rest.drop 1)
      else if c = '(' || c = ')' || c = '!' then
        String.mk [c] :: tokenizePredAux f rest
      else
        let (operand, remaining) := scanPredOperand (c :: rest) 0 ""
        if strIsEmpty (strTrim operand) then tokenizePredAux f remaining
        else strTrim operand :: tokenizePredAux f remaining

def tokenizeBooleanFilterExpression (e : String) : List String :=
  tokenizePredAux e.length e.data

/-- The recursive-descent `PredicateParser` (`parse_or`/`parse_and`/
`parse_not`/`parse_primary`), fuelled; the fuel passed by the entry point
exceeds any possible recursion depth. -/
def parsePredNot (fuel : Nat) (parseOr : List String →
    Except String (PredicateExpr × List String)) :
    List String → Except String (PredicateExpr × List String) :=
  fun tokens =>
    match fuel, tokens with
    | 0, _ => .error "fuel"
    | f + 1, "!" :: rest => do
        let (inner, rem) ← parsePredNot f parseOr rest
        .ok (.pnot inner, rem)
    | _, "(" :: rest => do
        let (inner, rem) ← parseOr rest
        match rem with
        | ")" :: rem' => .ok (inner, rem')
        | _ => .error "Expected closing parenthesis."
    | _, tok :: rest =>
        match compileBuiltinPipeline Option.none tok with
        | some p => .ok (.pipeline p, rest)
        | Option.none => .error "Invalid path filter token."
    | _, [] => .error "Unexpected end of boolean path filter expression."

def parsePredAndLoop (fuel : Nat)
    (parseNot : List String → Except String (PredicateExpr × List String))
    (left : PredicateExpr) : List String →
    Except String (PredicateExpr × List String) :=
  fun tokens =>
    match fuel, tokens with
    | 0, _ => .error "fuel"
    | f + 1, "&&" :: rest => do
        let (right, rem) ← parseNot rest
        parsePredAndLoop f parseNot (.pand left right) rem
    | _, _ => .ok (left, tokens)

def parsePredOrLoop (fuel : Nat)
    (parseAnd : List String → Except String (PredicateExpr × List String))
    (left : PredicateExpr) : List String →
    Except String (PredicateExpr × List String) :=
  fun tokens =>
    match fuel, tokens with
    | 0, _ => .error "fuel"
    | f + 1, "||" :: rest => do
        let (right, rem) ← parseAnd rest
        parsePredOrLoop f parseAnd (.por left right) rem
    | _, _ => .ok (left, tokens)

def parsePredOr : Nat → List String → Except String (PredicateExpr × List String)
  | 0, _ => .error "fuel"
  | f + 1, tokens => do
      let parseAnd := fun ts => do
        let (l, rem) ← parsePredNot f (parsePredOr f) ts
        parsePredAndLoop f (parsePredNot f (parsePredOr f)) l rem
      let (l, rem) ← parseAnd tokens
      parsePredOrLoop f parseAnd l rem

/-- `PredicateParser::parse`: the whole token list must be consumed. -/
def parsePredicate (tokens : List String) : Except String PredicateExpr := do
  let (e, rem) ← parsePredOr (2 * tokens.length + 8) tokens
  match rem with
  | [] => .ok e
  | _ => .error "Unexpected token in boolean path filter expression."

/-- `compile_builtin_or_boolean_predicate`. -/
def compileBuiltinOrBooleanPredicate (expr : String) :
    Except String (Option PredicateExpr) :=
  if strContains expr "&&" || strContains expr "||" ||
      expr.data.contains '!' then
    (parsePredicate (tokenizeBooleanFilterExpression expr)).map some
  else
    match compileBuiltinPipeline Option.none expr with
    | some p => .ok (some (.pipeline p))
    | Option.none => .ok Option.none

/-- `eval_predicate_expr` (short-circuiting). -/
def evalPredicateExpr (v : Val) : PredicateExpr → PyResult Bool
  | .pipeline p => do
      let r ← applyBuiltinPipeline v p
      .ok (pyTruthy r)
  | .pnot e => do
      let r ← evalPredicateExpr v e
      .ok (!r)
  | .pand l r => do
      let lv ← evalPredicateExpr v l
      if !lv then .ok false else evalPredicateExpr v r
  | .por l r => do
      let lv ← evalPredicateExpr v l
      if lv then .ok true else evalPredicateExpr v r

/-- `validate_filter_token`: syntax checks performed at parse time on a
filter token's field and value. -/
def validateFilterToken (_listKey field _operator value : String) :
    PyResult Unit :=
  if strStartsWith field "$" then .error .parseErr
  else
    let fieldOk : PyResult Unit :=
      if field = "." then .ok ()
      else if strStartsWith field ".|" then
        match compileBuiltinPipeline Option.none (strDrop field 2) with
        | some _ => .ok ()
        | Option.none => .error .parseErr
      else
            match compileBuiltinOrBooleanPredicate field with
            | .error _ => .error .parseErr
            | .ok _ => .ok ()
    do
      fieldOk
      match compileBuiltinOrBooleanPredicate value with
      | .error _ => .error .parseErr
      | .ok _ => .ok ()

/-- One segment of `parse_path`: classification plus filter validation. -/
def parsePathStep (raw : String) : PyResult TokenKind := do
  let kind := parseToken raw
  match kind with
  | .filter lk f op v => do
      validateFilterToken lk f op v
      pure kind
  | _ => pure kind

def parsePath (path : String) : PyResult (List TokenKind) :=
  if strIsEmpty path then .error .parseErr
  else (splitRawPathTokens path).mapM parsePathStep

def TokenKind.isRoot : TokenKind → Bool
  | .root => true
  | _ => false

/-- `path_uses_root_token`. -/
def pathUsesRootToken (tokens : List TokenKind) : Bool :=
  tokens.any TokenKind.isRoot

mutual

/-- `iter_child_nodes`: direct children of a dict or list. -/
def iterChildNodes : Val → List Val
  | .dict d => iterChildValuesDict d
  | .list xs => xs
  | _ => []

def iterChildValuesDict : List (String × Val) → List Val
  | [] => []
  | (_, v) :: rest => v :: iterChildValuesDict rest

end

mutual

/-- `collect_descendants`: pre-order descendants (each child followed by
its own descendants). -/
def collectDescendants : Val → List Val
  | .dict d => collectDescendantsDict d
  | .list xs => collectDescendantsList xs
  | _ => []

def collectDescendantsList : List Val → List Val
  | [] => []
  | x :: xs => x :: (collectDescendants x ++ collectDescendantsList xs)

def collectDescendantsDict : List (String × Val) → List Val
  | [] => []
  | (_, v) :: xs => v :: (collectDescendants v ++ collectDescendantsDict xs)

end

/-- `resolve_get_token`: dict lookup (missing key → soft `KeyError`),
key-projection over a list of dicts, `TypeError` otherwise. -/
def resolveGetToken (cur : Val) (key : String) : PyResult Val :=
  match cur with
  | .dict d =>
      match dictGet d key with
      | some v => .ok v
      | Option.none => .error .keyErr
  | .list xs =>
      .ok (.list (xs.filterMap fun item =>
        match item with
        | .dict d => dictGet d key
        | _ => Option.none))
  | _ => .error .typeErr

/-- `resolve_map_token`: the current node itself must be a list; project the
key over its dict elements. -/
def resolveMapToken (cur : Val) (key : String) : PyResult Val :=
  match cur with
  | .list xs =>
      .ok (.list (xs.filterMap fun item =>
        match item with
        | .dict d => dictGet d key
        | _ => Option.none))
  | _ => .error .typeErr

/-- `resolve_wildcard_token`. -/
def resolveWildcardToken (cur : Val) : PyResult Val :=
  if isDictOrList cur then .ok (.list (iterChildNodes cur))
  else .error .typeErr

/-- `resolve_deep_wildcard_token`. -/
def resolveDeepWildcardToken (cur : Val) : PyResult Val :=
  if isDictOrList cur then .ok (.list (collectDescendants cur))
  else .error .typeErr

/-- `resolve_index_token`: `current[key][i]` with Python indexing;
out-of-range raises `IndexError` (a hard error). -/
def resolveIndexToken (cur : Val) (key : String) (i : Int) : PyResult Val :=
  match cur with
  | .dict d =>
      match dictGet d key with
      | Option.none => .error .keyErr
      | some listValue =>
          match listValue with
          | .list xs =>
              let len : Int := xs.length
              if i ≥ -len && i < len then
                .ok (xs.getD (if i < 0 then (len + i).toNat else i.toNat) .none)
              else .error .indexErr
          | _ => .error .typeErr
  | _ => .error .typeErr

/-- `resolve_slice_token`: Python slice clamping over `current[key]`. -/
def resolveSliceToken (cur : Val) (key : String) (start stop : Option Int) :
    PyResult Val :=
  match cur with
  | .dict d =>
      match dictGet d key with
      | Option.none => .error .keyErr
      | some listValue =>
          match listValue with
          | .list xs =>
              let len : Int := xs.length
              let s0 := start.getD 0
              let s1 := if s0 < 0 then s0 + len else s0
              let s2 := if s1 < 0 then 0 else if s1 > len then len else s1
              let e0 := stop.getD len
              let e1 := if e0 < 0 then e0 + len else e0
              let e2 := if e1 < 0 then 0 else if e1 > len then len else e1
              if s2 ≥ e2 then .ok (.list [])
              else .ok (.list ((xs.drop s2.toNat).take (e2 - s2).toNat))
          | _ => .error .typeErr
  | _ => .error .typeErr

/-- `FieldValueResolver` of a compiled filter matcher. -/
inductive FieldValueResolver where
  | currentItem
  | currentItemBuiltinPipeline (p : BuiltinFilterPipeline)
  | currentItemTransform (p : Option BuiltinFilterPipeline)
  | predicateFilter (e : PredicateExpr)
  | key (name : String)

/-- `ValueMatcher` of a compiled filter matcher. -/
inductive ValueMatcher where
  | builtinPipeline (p : BuiltinFilterPipeline)
  | predicateExpr (e : PredicateExpr)
  | literal (v : Val)

structure CompiledFilterMatcher where
  fieldResolver : FieldValueResolver
  valueMatcher : ValueMatcher
  rawValue : String

/-- `resolve_predicate_filter` (parse failures become parse errors). -/
def resolvePredicateFilter (expr : String) : PyResult (Option PredicateExpr) :=
  match compileBuiltinOrBooleanPredicate expr with
  | .ok r => .ok r
  | .error _ => .error .parseErr

/-- `compile_filter_matcher`. -/
def compileFilterMatcher (field value : String) :
    PyResult CompiledFilterMatcher := do
  let fieldResolver ←
    if field = "." then pure FieldValueResolver.currentItem
    else if strStartsWith field ".|" then
      match compileBuiltinPipeline Option.none (strDrop field 2) with
      | some p => pure (FieldValueResolver.currentItemBuiltinPipeline p)
      | Option.none => pure (FieldValueResolver.currentItemTransform Option.none)
    else do
          match ← resolvePredicateFilter field with
          | some e => pure (FieldValueResolver.predicateFilter e)
          | Option.none => pure (FieldValueResolver.key field)
  let valueMatcher ←
    match compileBuiltinPipeline Option.none value with
    | some p => pure (ValueMatcher.builtinPipeline p)
    | Option.none => do
        match ← resolvePredicateFilter value with
        | some e => pure (ValueMatcher.predicateExpr e)
        | Option.none => pure (ValueMatcher.literal (parseLiteral value))
  pure ⟨fieldResolver, valueMatcher, value⟩

/-- `resolve_filter_field_value_compiled`. -/
def resolveFilterFieldValueCompiled (m : CompiledFilterMatcher) (item : Val) :
    PyResult Val :=
  match m.fieldResolver with
  | .currentItem => .ok item
  | .currentItemBuiltinPipeline p => applyBuiltinPipeline item p
  | .currentItemTransform p? =>
      match p? with
      | some p => applyBuiltinPipeline item p
      | Option.none => .ok .none
  | .predicateFilter e => (evalPredicateExpr item e).map Val.bool
  | .key field =>
      match item with
      | .dict d =>
          match dictGet d field with
          | some v => .ok v
          | Option.none => .ok .none
      | _ => .ok .none

/-- `resolve_root_reference_value`: translate the `$$root` form and run a
strict GET against the root (supplied as the closure `sg`). -/
def resolveRootReferenceValue (sg : RootGet) (value : String) : PyResult Val :=
  match rootRefPath value with
  | some p => sg p
  | Option.none => .error .parseErr

/-- `filter_matches_compiled`: pipeline/predicate value matchers (only
`==`/`!=`), then literal comparison with the literal-reparse and
stringification fallbacks and the raw-text equality. -/
def filterMatchesCompiled (sg? : Option RootGet) (operator : String)
    (m : CompiledFilterMatcher) (item : Val) : PyResult Bool := do
  let fieldValue ← resolveFilterFieldValueCompiled m item
  match m.valueMatcher with
  | .builtinPipeline p =>
      if operator = "==" || operator = "!=" then do
        let predicateValue ← applyBuiltinPipeline fieldValue p
        pure (if operator = "==" then pyTruthy predicateValue
          else !pyTruthy predicateValue)
      else .error .operatorErr
  | .predicateExpr e =>
      if operator = "==" then evalPredicateExpr fieldValue e
      else if operator = "!=" then do
        let r ← evalPredicateExpr fieldValue e
        pure (!r)
      else .error .operatorErr
  | .literal lit => do
      let expected ←
        match sg? with
        | some sg =>
            if strStartsWith m.rawValue "$$root" then
              resolveRootReferenceValue sg m.rawValue
            else pure lit
        | Option.none => pure lit
      if operator = "==" || operator = "!=" then
        let result := pyEq fieldValue expected ||
          pyStr fieldValue == m.rawValue
        pure (if operator = "==" then result else !result)
      else
        match compareValues fieldValue expected operator with
        | .ok r => pure r
        | .error e =>
            if e ≠ .typeErr then .error e
            else
              let afterReparse : PyResult (Option Bool) :=
                match fieldValue with
                | .str s =>
                    match compareValues (parseLiteral s) expected operator with
                    | .ok r => .ok (some r)
                    | .error e' =>
                        if e' ≠ .typeErr then .error e' else .ok Option.none
                | _ => .ok Option.none
              match afterReparse with
              | .error e' => .error e'
              | .ok (some r) => pure r
              | .ok Option.none =>
                  compareValues (.str (pyStr fieldValue))
                    (.str m.rawValue) operator

/-- `resolve_filter_token`: fetch `current[list_key]` (a missing key gives
an empty list; a non-dict current is used as the list itself), then keep
the elements matched by the compiled matcher. -/
def resolveFilterToken (sg : RootGet) (cur : Val)
    (listKey field operator value : String) : PyResult Val := do
  let m ← compileFilterMatcher field value
  let sourceList :=
    match cur with
    | .dict d =>
        match dictGet d listKey with
        | some v => v
        | Option.none => .list []
    | _ => cur
  match sourceList with
  | .list xs => do
      let kept ← xs.foldlM (fun acc item => do
        let matched ← filterMatchesCompiled (some sg) operator m item
        pure (if matched then acc ++ [item] else acc)) ([] : List Val)
      pure (.list kept)
  | _ => .error .typeErr

/-- `resolve_token`. -/
def resolveToken (sg : RootGet) (cur : Val) : TokenKind → PyResult Val
  | .get key => resolveGetToken cur key
  | .map key => resolveMapToken cur key
  | .wildcard => resolveWildcardToken cur
  | .deepWildcard => resolveDeepWildcardToken cur
  | .index key i => resolveIndexToken cur key i
  | .slice key a b => resolveSliceToken cur key a b
  | .filter lk f op v => resolveFilterToken sg cur lk f op v
  | .root => .ok cur

/-- Outcome of the shared read loop of GET / EXISTS /
`ensure_path_resolves`: either every token resolved, or a soft resolution
failure stopped the walk (hard errors propagate in the `Except`). -/
inductive WalkOutcome where
  | resolved (v : Val)
  | soft (e : PyErrKind)
deriving DecidableEq

/-- The token loop shared by `RustDictWalk::get`, `RustDictWalk::exists`
and `ensure_path_resolves`: `Root` resets to the root, soft errors stop the
walk, hard errors are raised. -/
def walkTokens (sg : RootGet) (root : Val) : Val → List TokenKind →
    PyResult WalkOutcome
  | cur, [] => .ok (.resolved cur)
  | cur, t :: rest =>
      match t with
      | .root => walkTokens sg root root rest
      | _ =>
          match resolveToken sg cur t with
          | .ok v => walkTokens sg root v rest
          | .error e =>
              if isSoftResolutionError e then .ok (.soft e)
              else .error e

/-- `ensure_path_resolves`: walk the first `upto` tokens starting from the
root; a soft failure becomes a hard `DictWalkResolutionError`. -/
def ensurePathResolves (sg : RootGet) (data : Val) (tokens : List TokenKind)
    (upto : Nat) : PyResult Unit :=
  match walkTokens sg data data (tokens.take upto) with
  | .ok (.resolved _) => .ok ()
  | .ok (.soft _) => .error .resolutionErr
  | .error e => .error e

/-- `apply_output_transform`: a transform that does not compile as a
pipeline is ignored. -/
def applyOutputTransform (sg : RootGet) (cur : Val) (transform : String) :
    PyResult Val :=
  match compileBuiltinPipeline (some sg) transform with
  | some p => applyBuiltinPipeline cur p
  | Option.none => .ok cur

/-- The body of `RustDictWalk::get`, parameterized by the strict root GET
used for `$$root` references. -/
def rustGetCore (sg : RootGet) (data : Val) (path : String) (dflt : Val)
    (strict : Bool) : PyResult Val :=
  let (basePath, transform?) := splitPathAndTransform path
  if basePath = "." then
    match transform? with
    | some tr => applyOutputTransform sg data tr
    | Option.none => .ok data
  else do
    let tokens ← parsePath basePath
    match ← walkTokens sg data data tokens with
    | .resolved cur =>
        match transform? with
        | some tr => applyOutputTransform sg cur tr
        | Option.none => .ok cur
    | .soft _ => if strict then .error .resolutionErr else .ok dflt

/-- `RustDictWalk::get` with a fuel bound on the `$$root` re-entrancy (the
source recurses through strictly shorter path strings, so the fuel passed
by the wrappers is never exhausted on reachable inputs). -/
def rustGetFuel : Nat → Val → String → Val → Bool → PyResult Val
  | 0, _, _, _, _ => .error .unmodeled
  | f + 1, data, path, dflt, strict =>
      rustGetCore (fun p => rustGetFuel f data p .none true) data path dflt
        strict

/-- The strict root GET closure handed to the walkers (each nested path
brings its own sufficient fuel). -/
def sgFor (data : Val) : RootGet :=
  fun p => rustGetFuel (p.length + 1) data p .none true

/-- `RustDictWalk::get`. -/
def rustGet (data : Val) (path : String) (dflt : Val) (strict : Bool) :
    PyResult Val :=
  rustGetCore (sgFor data) data path dflt strict

/-- `RustDictWalk::exists`: same token walk as GET, but without the
transform split or the `"."` special case. -/
def rustExists (data : Val) (path : String) (strict : Bool) :
    PyResult Bool := do
  let tokens ← parsePath path
  match ← walkTokens (sgFor data) data data tokens with
  | .resolved _ => .ok true
  | .soft _ => if strict then .error .resolutionErr else .ok false

/-- `WriteOptions`. -/
structure WriteOptions where
  createMissing : Bool
  createFilterMatch : Bool
  overwriteIncompatible : Bool

/-- All four options at their API defaults. -/
def defaultWriteOptions : WriteOptions :=
  ⟨true, true, true⟩

/-- `resolve_new_value`: `$$root…` strings re-resolve against the root with
a strict GET, pipeline strings transform the existing value, everything
else is stored verbatim. -/
def resolveNewValue (sg : RootGet) (existing : Option Val) (newValue : Val) :
    PyResult Val :=
  match newValue with
  | .str s =>
      if strStartsWith s "$$root" then
        match rootRefPath s with
        | some p => sg p
        | Option.none => .error .parseErr
      else
        match compileBuiltinPipeline Option.none s with
        | some pipeline => applyBuiltinPipeline (existing.getD .none) pipeline
        | Option.none => .ok newValue
  | _ => .ok newValue

/-- `coerce_current_to_dict_for_write`: a non-dict current is replaced by a
fresh empty dict only when both `overwrite_incompatible` and
`create_missing` are set. -/
def coerceCurrentToDictForWrite (cur : Val) (opts : WriteOptions) : Val :=
  if cur.isDict then cur
  else if !opts.overwriteIncompatible || !opts.createMissing then cur
  else .dict []

/-- `compute_slice_indexes`. -/
def computeSliceIndexes (len : Nat) (start stop : Option Int) : List Nat :=
  let lenI : Int := len
  let s0 := start.getD 0
  let s1 := if s0 < 0 then s0 + lenI else s0
  let s2 := if s1 < 0 then 0 else if s1 > lenI then lenI else s1
  let e0 := stop.getD lenI
  let e1 := if e0 < 0 then e0 + lenI else e0
  let e2 := if e1 < 0 then 0 else if e1 > lenI then lenI else e1
  if s2 ≥ e2 then []
  else (List.range (e2 - s2).toNat).map (fun k => s2.toNat + k)

mutual

/-- Structural size, used only to pre-allocate fuel for the deep-wildcard
walks (whose termination in the source rests on the object graph being
finite). -/
def Val.size : Val → Nat
  | .none => 1
  | .bool _ => 1
  | .int _ => 1
  | .str _ => 1
  | .list xs => 1 + Val.sizeList xs
  | .dict xs => 1 + Val.sizeDict xs

def Val.sizeList : List Val → Nat
  | [] => 0
  | x :: xs => Val.size x + Val.sizeList xs

def Val.sizeDict : List (String × Val) → Nat
  | [] => 0
  | (_, v) :: xs => Val.size v + Val.sizeDict xs

end

/-- `new_write_container` (always an empty dict). -/
def newWriteContainer : Val :=
  .dict []

/-- `set_get_token` (`next_kind = none` marks the terminal token).  On
error the functional model discards the partial in-place mutation; no
theorem below inspects a tree after a failed call. -/
def setGetToken (sg : RootGet) (opts : WriteOptions) (newValue : Val)
    (nextKind : Option TokenKind) (recurse : Val → PyResult Val) (cur : Val)
    (key : String) : PyResult Val :=
  let cur := coerceCurrentToDictForWrite cur opts
  match cur with
  | .dict d =>
      match nextKind with
      | Option.none =>
          let existing := dictGet d key
          if existing.isNone && !opts.createMissing then .ok (.dict d)
          else do
            let resolved ← resolveNewValue sg existing newValue
            .ok (.dict (dictSet d key resolved))
      | some _ => do
          let childOpt := dictGet d key
          let hadChild := childOpt.isSome
          match childOpt, opts.createMissing with
          | Option.none, false => .ok (.dict d)
          | _, _ =>
              let child := childOpt.getD newWriteContainer
              if hadChild && nextKind.isSome && !isDictOrList child &&
                  !opts.overwriteIncompatible then .ok (.dict d)
              else do
                let child :=
                  if hadChild && nextKind.isSome && !isDictOrList child then
                    newWriteContainer
                  else child
                let updated ← recurse child
                .ok (.dict (dictSet d key updated))
  | _ => .ok cur

/-- The shared `current[key]`-as-list fetch of the Map/Index/Slice set
handlers: `none` means the handler returns `current` unchanged. -/
def fetchListForWrite (d : List (String × Val)) (key : String)
    (opts : WriteOptions) : Option (List Val) :=
  match dictGet d key with
  | some v =>
      match v with
      | .list xs => some xs
      | _ => if !opts.overwriteIncompatible then Option.none else some []
  | Option.none =>
      if !opts.createMissing then Option.none else some []

/-- The per-element rewrite loop of the non-terminal Map/Slice handlers:
incompatible elements are skipped (without `overwrite_incompatible`) or
replaced by a fresh dict. -/
def setEachChild (opts : WriteOptions) (nextIsSome : Bool)
    (recurse : Val → PyResult Val) : List Val → PyResult (List Val)
  | [] => .ok []
  | item :: rest => do
      if nextIsSome && !isDictOrList item && !opts.overwriteIncompatible then
        let tail ← setEachChild opts nextIsSome recurse rest
        pure (item :: tail)
      else do
        let item := if nextIsSome && !isDictOrList item then newWriteContainer
          else item
        let updated ← recurse item
        let tail ← setEachChild opts nextIsSome recurse rest
        pure (updated :: tail)

/-- `set_map_token`. -/
def setMapToken (sg : RootGet) (opts : WriteOptions) (newValue : Val)
    (nextKind : Option TokenKind) (recurse : Val → PyResult Val) (cur : Val)
    (key : String) : PyResult Val :=
  let cur := coerceCurrentToDictForWrite cur opts
  match cur with
  | .dict d =>
      match fetchListForWrite d key opts with
      | Option.none => .ok (.dict d)
      | some xs =>
          match nextKind with
          | Option.none => do
              let xs' ← xs.mapM fun item =>
                resolveNewValue sg (some item) newValue
              .ok (.dict (dictSet d key (.list xs')))
          | some _ => do
              if xs.isEmpty && !opts.createMissing then .ok (.dict d)
              else do
                let xs := if xs.isEmpty then [newWriteContainer] else xs
                let xs' ← setEachChild opts true recurse xs
                .ok (.dict (dictSet d key (.list xs')))
  | _ => .ok cur

/-- `set_wildcard_token` (`terminal` mirrors `remaining.len() == 1`). -/
def setWildcardToken (sg : RootGet) (newValue : Val) (terminal : Bool)
    (recurse : Val → PyResult Val) (cur : Val) : PyResult Val :=
  match cur with
  | .dict d => do
      let d' ← d.mapM fun kv => do
        let updated ←
          if terminal then resolveNewValue sg (some kv.2) newValue
          else recurse kv.2
        pure (kv.1, updated)
      .ok (.dict d')
  | .list xs => do
      let xs' ← xs.mapM fun child => do
        if terminal then resolveNewValue sg (some child) newValue
        else recurse child
      .ok (.list xs')
  | _ => .ok cur

/-- One dict entry of `deep_set_walk`: update the child through the tail
tokens (when any), then descend into the re-read child if it is still a
container. -/
def deepSetWalkDictStep (hasTail : Bool) (recurseTail : Val → PyResult Val)
    (deeper : Val → PyResult Val) (d : List (String × Val)) (key : String) :
    PyResult (List (String × Val)) := do
  match dictGet d key with
  | Option.none => pure d
  | some child => do
      let d ←
        if hasTail then do
          let updated ← recurseTail child
          pure (dictSet d key updated)
        else pure d
      match dictGet d key with
      | some nextChild =>
          if isDictOrList nextChild then do
            let walked ← deeper nextChild
            pure (dictSet d key walked)
          else pure d
      | Option.none => pure d

/-- `deep_set_walk`, fuelled: the source's recursion descends the (finite,
possibly freshly rewritten) object graph; the wrappers pass fuel exceeding
any reachable depth. -/
def deepSetWalk (hasTail : Bool) (recurseTail : Val → PyResult Val) :
    Nat → Val → PyResult Val
  | 0, _ => .error .unmodeled
  | f + 1, node =>
      match node with
      | .dict d => do
          let d' ← (dictKeys d).foldlM
            (fun acc key =>
              deepSetWalkDictStep hasTail recurseTail
                (deepSetWalk hasTail recurseTail f) acc key) d
          pure (.dict d')
      | .list xs => do
          let xs' ← xs.mapM fun child => do
            let child ←
              if hasTail then recurseTail child
              else pure child
            if isDictOrList child then deepSetWalk hasTail recurseTail f child
            else pure child
          pure (.list xs')
      | _ => .ok node

/-- `set_index_token` (see C5): negative below `-len` is a no-op; a
non-negative index requires `create_missing` (padding with `null` or fresh
dicts up to the index), then the element is written like a Get write. -/
def setIndexToken (sg : RootGet) (opts : WriteOptions) (newValue : Val)
    (nextKind : Option TokenKind) (recurse : Val → PyResult Val) (cur : Val)
    (key : String) (i : Int) : PyResult Val :=
  let cur := coerceCurrentToDictForWrite cur opts
  match cur with
  | .dict d =>
      match fetchListForWrite d key opts with
      | Option.none => .ok (.dict d)
      | some xs =>
          if i < 0 && i < -(xs.length : Int) then
            .ok (.dict (dictSet d key (.list xs)))
          else if i ≥ 0 && !opts.createMissing then
            .ok (.dict (dictSet d key (.list xs)))
          else
            let fill := if nextKind.isSome then newWriteContainer else Val.none
            let xs :=
              if i ≥ 0 then
                xs ++ List.replicate (i.toNat + 1 - xs.length) fill
              else xs
            let target :=
              if i < 0 then ((xs.length : Int) + i).toNat else i.toNat
            match nextKind with
            | Option.none => do
                let existing := xs.getD target .none
                let resolved ← resolveNewValue sg (some existing) newValue
                .ok (.dict (dictSet d key (.list (xs.set target resolved))))
            | some _ => do
                let item := xs.getD target .none
                if nextKind.isSome && !isDictOrList item &&
                    !opts.overwriteIncompatible then
                  .ok (.dict (dictSet d key (.list xs)))
                else do
                  let item :=
                    if nextKind.isSome && !isDictOrList item then
                      newWriteContainer
                    else item
                  let updated ← recurse item
                  .ok (.dict (dictSet d key (.list (xs.set target updated))))
  | _ => .ok cur

/-- The index-driven rewrite loops of `set_slice_token`, threading the
list. -/
def setSliceEach (sg : RootGet) (opts : WriteOptions) (newValue : Val)
    (nextKind : Option TokenKind) (recurse : Val → PyResult Val) :
    List Nat → List Val → PyResult (List Val)
  | [], xs => .ok xs
  | idx :: idxs, xs => do
      let item := xs.getD idx .none
      match nextKind with
      | Option.none => do
          let resolved ← resolveNewValue sg (some item) newValue
          setSliceEach sg opts newValue nextKind recurse idxs
            (xs.set idx resolved)
      | some _ =>
          if !isDictOrList item && !opts.overwriteIncompatible then
            setSliceEach sg opts newValue nextKind recurse idxs xs
          else do
            let item := if !isDictOrList item then newWriteContainer else item
            let updated ← recurse item
            setSliceEach sg opts newValue nextKind recurse idxs
              (xs.set idx updated)

/-- `set_slice_token` (never grows the list). -/
def setSliceToken (sg : RootGet) (opts : WriteOptions) (newValue : Val)
    (nextKind : Option TokenKind) (recurse : Val → PyResult Val) (cur : Val)
    (key : String) (start stop : Option Int) : PyResult Val :=
  let cur := coerceCurrentToDictForWrite cur opts
  match cur with
  | .dict d =>
      match fetchListForWrite d key opts with
      | Option.none => .ok (.dict d)
      | some xs => do
          let indexes := computeSliceIndexes xs.length start stop
          let xs' ← setSliceEach sg opts newValue nextKind recurse indexes xs
          .ok (.dict (dictSet d key (.list xs')))
  | _ => .ok cur

/-- Rewrite the elements whose match bit is set (missing bits count as
unmatched, as `matches.get(idx).copied().unwrap_or(false)` does). -/
def rewriteMatched (step : Val → PyResult Val) :
    List Val → List Bool → PyResult (List Val)
  | [], _ => .ok []
  | x :: xs, ms => do
      let m := ms.headD false
      let x' ← if m then step x else pure x
      let rest ← rewriteMatched step xs (ms.drop 1)
      pure (x' :: rest)

/-- The `field_uses_item_root` flag of `set_filter_token`. -/
def fieldUsesItemRootFlag : FieldValueResolver → Bool
  | .currentItem => true
  | .currentItemBuiltinPipeline _ => true
  | .currentItemTransform _ => true
  | _ => false

/-- The `field_path_filter_present` flag of `set_filter_token`. -/
def fieldPathFilterFlag : FieldValueResolver → Bool
  | .currentItemBuiltinPipeline _ => true
  | .currentItemTransform _ => true
  | .predicateFilter _ => true
  | _ => false

/-- The `value_path_filter_present` flag of `set_filter_token`. -/
def valuePathFilterFlag : ValueMatcher → Bool
  | .builtinPipeline _ => true
  | .predicateExpr _ => true
  | _ => false

/-- `set_filter_token`: evaluate the matcher over the list, append a
`{field: value_text}` element when nothing matched and the creation
conditions hold, then rewrite (terminal) or recurse into (non-terminal)
the matched elements. -/
def setFilterToken (sg : RootGet) (opts : WriteOptions) (newValue : Val)
    (nextKind : Option TokenKind) (recurse : Val → PyResult Val) (cur : Val)
    (listKey field operator value : String) : PyResult Val :=
  match cur with
  | .dict d =>
      match fetchListForWrite d listKey opts with
      | Option.none => .ok (.dict d)
      | some xs => do
          let m ← compileFilterMatcher field value
          let bits ← xs.mapM (filterMatchesCompiled (some sg) operator m)
          let fieldUsesItemRoot := fieldUsesItemRootFlag m.fieldResolver
          let fieldPathFilterPresent := fieldPathFilterFlag m.fieldResolver
          let valuePathFilterPresent := valuePathFilterFlag m.valueMatcher
          let createMatch := !bits.any id &&
            !fieldUsesItemRoot && !fieldPathFilterPresent &&
            !valuePathFilterPresent && operator = "==" &&
            opts.createMissing && opts.createFilterMatch
          let xs := if createMatch then
              xs ++ [.dict [(field, .str value)]]
            else xs
          let bits := if createMatch then bits ++ [true] else bits
          let step : Val → PyResult Val :=
            match nextKind with
            | Option.none => fun existing =>
                resolveNewValue sg (some existing) newValue
            | some _ => recurse
          let xs' ← rewriteMatched step xs bits
          .ok (.dict (dictSet d listKey (.list xs')))
  | _ => .ok cur

/-- `set_recurse` (deep-wildcard descents are handed `deepFuel`). -/
def setRecurse (sg : RootGet) (deepFuel : Nat) (opts : WriteOptions)
    (newValue : Val) : List TokenKind → Val → PyResult Val
  | [], _cur => .ok newValue
  | t :: rest, cur =>
      match t with
      | .get key =>
          setGetToken sg opts newValue rest.head?
            (setRecurse sg deepFuel opts newValue rest) cur key
      | .map key =>
          setMapToken sg opts newValue rest.head?
            (setRecurse sg deepFuel opts newValue rest) cur key
      | .wildcard =>
          setWildcardToken sg newValue rest.isEmpty
            (setRecurse sg deepFuel opts newValue rest) cur
      | .deepWildcard =>
          if !isDictOrList cur then .ok cur
          else
            let applyOpts : WriteOptions :=
              ⟨false, opts.createFilterMatch, opts.overwriteIncompatible⟩
            deepSetWalk (!rest.isEmpty)
              (setRecurse sg deepFuel applyOpts newValue rest) deepFuel cur
      | .index key i =>
          setIndexToken sg opts newValue rest.head?
            (setRecurse sg deepFuel opts newValue rest) cur key i
      | .slice key a b =>
          setSliceToken sg opts newValue rest.head?
            (setRecurse sg deepFuel opts newValue rest) cur key a b
      | .filter lk f op v =>
          setFilterToken sg opts newValue rest.head?
            (setRecurse sg deepFuel opts newValue rest) cur lk f op v
      | .root => .ok cur

/-- `RustDictWalk::set`: parse, reject `$$root`, strict pre-resolution up
to (excluding) the terminal token, then the write recursion.  The source
discards `set_recurse`'s return value and returns the in-place mutated
`data`; the handlers mutate `data` itself except when
`coerce_current_to_dict_for_write` substituted a fresh dict for a non-dict
root (first token Get/Map/Index/Slice), which is discarded. -/
def rustSet (data : Val) (path : String) (value : Val) (opts : WriteOptions)
    (strict : Bool) : PyResult Val := do
  let sg := sgFor data
  let tokens ← parsePath path
  if pathUsesRootToken tokens then .error .parseErr
  else do
    if strict && !tokens.isEmpty then
      ensurePathResolves sg data tokens (tokens.length - 1)
    else pure ()
    let result ← setRecurse sg (Val.size data + 2) opts value tokens data
    pure
      (match tokens.head? with
      | some (.get _) => if data.isDict then result else data
      | some (.map _) => if data.isDict then result else data
      | some (.index _ _) => if data.isDict then result else data
      | some (.slice _ _ _) => if data.isDict then result else data
      | some _ => result
      | Option.none => data)

/-- `unset_get_token`. -/
def unsetGetToken (recurse : Val → PyResult Val) (terminal : Bool)
    (cur : Val) (key : String) : PyResult Val :=
  match cur with
  | .dict d =>
      if terminal then .ok (.dict (dictDel d key))
      else
        match dictGet d key with
        | Option.none => .ok (.dict d)
        | some child => do
            let updated ← recurse child
            .ok (.dict (dictSet d key updated))
  | _ => .ok cur

/-- `unset_map_token`: terminal replaces the list with an empty one. -/
def unsetMapToken (recurse : Val → PyResult Val) (terminal : Bool)
    (cur : Val) (key : String) : PyResult Val :=
  match cur with
  | .dict d =>
      match dictGet d key with
      | some (.list xs) =>
          if terminal then .ok (.dict (dictSet d key (.list [])))
          else do
            let xs' ← xs.mapM recurse
            .ok (.dict (dictSet d key (.list xs')))
      | some _ => .ok (.dict d)
      | Option.none => .ok (.dict d)
  | _ => .ok cur

/-- `unset_wildcard_token`: terminal clears the container in place. -/
def unsetWildcardToken (recurse : Val → PyResult Val) (terminal : Bool)
    (cur : Val) : PyResult Val :=
  match cur with
  | .dict d =>
      if terminal then .ok (.dict [])
      else do
        let d' ← d.mapM fun kv => do
          let updated ← recurse kv.2
          pure (kv.1, updated)
        .ok (.dict d')
  | .list xs =>
      if terminal then .ok (.list [])
      else do
        let xs' ← xs.mapM recurse
        .ok (.list xs')
  | _ => .ok cur

/-- One dict entry of `deep_unset_walk`. -/
def deepUnsetWalkDictStep (hasTail : Bool) (recurseTail : Val → PyResult Val)
    (deeper : Val → PyResult Val) (d : List (String × Val)) (key : String) :
    PyResult (List (String × Val)) := do
  match dictGet d key with
  | Option.none => pure d
  | some child => do
      let d ←
        if hasTail then do
          let updated ← recurseTail child
          pure (dictSet d key updated)
        else pure d
      match dictGet d key with
      | some nextChild =>
          if isDictOrList nextChild then do
            let walked ← deeper nextChild
            pure (dictSet d key walked)
          else pure d
      | Option.none => pure d

/-- `deep_unset_walk`, fuelled like `deep_set_walk`. -/
def deepUnsetWalk (hasTail : Bool) (recurseTail : Val → PyResult Val) :
    Nat → Val → PyResult Val
  | 0, _ => .error .unmodeled
  | f + 1, node =>
      match node with
      | .dict d => do
          let d' ← (dictKeys d).foldlM
            (fun acc key =>
              deepUnsetWalkDictStep hasTail recurseTail
                (deepUnsetWalk hasTail recurseTail f) acc key) d
          pure (.dict d')
      | .list xs => do
          let xs' ← xs.mapM fun child => do
            let child ←
              if hasTail then recurseTail child
              else pure child
            if isDictOrList child then deepUnsetWalk hasTail recurseTail f child
            else pure child
          pure (.list xs')
      | _ => .ok node

/-- `unset_index_token`: terminal pops the (Python-indexed) element when in
bounds. -/
def unsetIndexToken (recurse : Val → PyResult Val) (terminal : Bool)
    (cur : Val) (key : String) (i : Int) : PyResult Val :=
  match cur with
  | .dict d =>
      match dictGet d key with
      | some (.list xs) =>
          let len : Int := xs.length
          let inBounds := i ≥ -len && i < len
          let target := if i < 0 then (len + i).toNat else i.toNat
          if terminal then
            if inBounds then
              .ok (.dict (dictSet d key (.list (xs.eraseIdx target))))
            else .ok (.dict (dictSet d key (.list xs)))
          else
            if inBounds then do
              let child := xs.getD target .none
              let updated ← recurse child
              .ok (.dict (dictSet d key (.list (xs.set target updated))))
            else .ok (.dict (dictSet d key (.list xs)))
      | some _ => .ok (.dict d)
      | Option.none => .ok (.dict d)
  | _ => .ok cur

/-- Terminal slice unset: pop the slice indexes in descending order (the
surviving elements keep their relative order). -/
def removeIndexes (xs : List Val) (idxs : List Nat) : List Val :=
  (xs.enum.filter (fun p => !idxs.contains p.1)).map (·.2)

/-- The non-terminal slice unset loop, threading the list. -/
def unsetSliceEach (recurse : Val → PyResult Val) :
    List Nat → List Val → PyResult (List Val)
  | [], xs => .ok xs
  | idx :: idxs, xs => do
      let child := xs.getD idx .none
      let updated ← recurse child
      unsetSliceEach recurse idxs (xs.set idx updated)

/-- `unset_slice_token`. -/
def unsetSliceToken (recurse : Val → PyResult Val) (terminal : Bool)
    (cur : Val) (key : String) (start stop : Option Int) : PyResult Val :=
  match cur with
  | .dict d =>
      match dictGet d key with
      | some (.list xs) =>
          let indexes := computeSliceIndexes xs.length start stop
          if terminal then
            .ok (.dict (dictSet d key (.list (removeIndexes xs indexes))))
          else do
            let xs' ← unsetSliceEach recurse indexes xs
            .ok (.dict (dictSet d key (.list xs')))
      | some _ => .ok (.dict d)
      | Option.none => .ok (.dict d)
  | _ => .ok cur

/-- Terminal filter unset: rebuild the list keeping the non-matching
elements. -/
def keepNotMatching (test : Val → PyResult Bool) :
    List Val → PyResult (List Val)
  | [] => .ok []
  | x :: xs => do
      let m ← test x
      let rest ← keepNotMatching test xs
      pure (if m then rest else x :: rest)

/-- Non-terminal filter unset: recurse into the matching elements. -/
def unsetIntoMatching (test : Val → PyResult Bool)
    (recurse : Val → PyResult Val) : List Val → PyResult (List Val)
  | [] => .ok []
  | x :: xs => do
      let m ← test x
      let x' ← if m then recurse x else pure x
      let rest ← unsetIntoMatching test recurse xs
      pure (x' :: rest)

/-- `unset_filter_token` (the matcher is evaluated without a root:
`filter_matches_compiled` receives `None` here). -/
def unsetFilterToken (recurse : Val → PyResult Val) (terminal : Bool)
    (cur : Val) (listKey field operator value : String) : PyResult Val :=
  match cur with
  | .dict d =>
      match dictGet d listKey with
      | some (.list xs) => do
          let m ← compileFilterMatcher field value
          let test := filterMatchesCompiled Option.none operator m
          if terminal then do
            let kept ← keepNotMatching test xs
            .ok (.dict (dictSet d listKey (.list kept)))
          else do
            let xs' ← unsetIntoMatching test recurse xs
            .ok (.dict (dictSet d listKey (.list xs')))
      | some _ => .ok (.dict d)
      | Option.none => .ok (.dict d)
  | _ => .ok cur

/-- `unset_recurse`. -/
def unsetRecurse (deepFuel : Nat) : List TokenKind → Val → PyResult Val
  | [], cur => .ok cur
  | t :: rest, cur =>
      match t with
      | .get key =>
          unsetGetToken (unsetRecurse deepFuel rest) rest.isEmpty cur key
      | .map key =>
          unsetMapToken (unsetRecurse deepFuel rest) rest.isEmpty cur key
      | .wildcard =>
          unsetWildcardToken (unsetRecurse deepFuel rest) rest.isEmpty cur
      | .deepWildcard =>
          if !isDictOrList cur then .ok cur
          else
            deepUnsetWalk (!rest.isEmpty) (unsetRecurse deepFuel rest)
              deepFuel cur
      | .index key i =>
          unsetIndexToken (unsetRecurse deepFuel rest) rest.isEmpty cur key i
      | .slice key a b =>
          unsetSliceToken (unsetRecurse deepFuel rest) rest.isEmpty cur key a b
      | .filter lk f op v =>
          unsetFilterToken (unsetRecurse deepFuel rest) rest.isEmpty cur
            lk f op v
      | .root => .ok cur

/-- `RustDictWalk::unset`: parse, reject `$$root`, strict pre-resolution of
the full path, then the unset recursion (whose result is the in-place
mutated `data` in every case). -/
def rustUnset (data : Val) (path : String) (strict : Bool) : PyResult Val := do
  let tokens ← parsePath path
  if pathUsesRootToken tokens then .error .parseErr
  else do
    if strict && !tokens.isEmpty then
      ensurePathResolves (sgFor data) data tokens tokens.length
    else pure ()
    unsetRecurse (Val.size data + 2) tokens data

/-! ## Lemmas about parsing and matcher compilation -/

theorem mapM_ok_mem {α β : Type} (f : α → PyResult β) :
    ∀ (xs : List α) (ys : List β), xs.mapM f = .ok ys →
      ∀ y ∈ ys, ∃ x, x ∈ xs ∧ f x = .ok y := by
  intro xs
  induction xs with
  | nil =>
      intro ys h y hy
      simp only [List.mapM_nil, pure, Except.pure] at h
      injection h with h'
      subst h'
      simp at hy
  | cons x xs ih =>
      intro ys h y hy
      rw [List.mapM_cons] at h
      cases hfx : f x with
      | error e =>
          rw [hfx] at h
          simp [Bind.bind, Except.bind] at h
      | ok b =>
          rw [hfx] at h
          cases hxs : xs.mapM f with
          | error e =>
              rw [hxs] at h
              simp [Bind.bind, Except.bind] at h
          | ok bs =>
              rw [hxs] at h
              simp only [Bind.bind, Except.bind, pure, Except.pure] at h
              injection h with h'
              subst h'
              rcases List.mem_cons.mp hy with hy | hy
              · exact ⟨x, List.mem_cons_self x xs, hy ▸ hfx⟩
              · obtain ⟨x', hx', hfx'⟩ := ih bs hxs y hy
                exact ⟨x', List.mem_cons_of_mem x hx', hfx'⟩

theorem parsePathStep_filter_validate (raw lk f op v : String)
    (h : parsePathStep raw = .ok (.filter lk f op v)) :
    validateFilterToken lk f op v = .ok () := by
  unfold parsePathStep at h
  revert h
  cases hk : parseToken raw with
  | filter lk' f' op' v' =>
      simp only [Bind.bind, Except.bind]
      cases hv : validateFilterToken lk' f' op' v' with
      | ok u =>
          cases u
          intro h
          simp only [pure, Except.pure] at h
          injection h with h'
          injection h' with e1 e2 e3 e4
          subst e1; subst e2; subst e3; subst e4
          exact hv
      | error e => intro h; simp [pure, Except.pure] at h
  | root => intro h; simp [pure, Except.pure] at h
  | wildcard => intro h; simp [pure, Except.pure] at h
  | deepWildcard => intro h; simp [pure, Except.pure] at h
  | map k => intro h; simp [pure, Except.pure] at h
  | get k => intro h; simp [pure, Except.pure] at h
  | index k i => intro h; simp [pure, Except.pure] at h
  | slice k a b => intro h; simp [pure, Except.pure] at h

theorem exists_ok_of_isOk {α : Type} (x : PyResult α)
    (h : x.isOk = true) : ∃ a, x = .ok a := by
  cases x with
  | ok a => exact ⟨a, rfl⟩
  | error e => simp [Except.isOk, Except.toBool] at h

theorem compileFilterMatcher_isOk_of_validate (lk f op v : String)
    (h : validateFilterToken lk f op v = .ok ()) :
    (compileFilterMatcher f v).isOk = true := by
  unfold validateFilterToken at h
  unfold compileFilterMatcher
  by_cases hdollar : strStartsWith f "$"
  · simp [hdollar] at h
  · simp only [hdollar, Bool.false_eq_true, if_false] at h
    have hv : ∃ r, compileBuiltinOrBooleanPredicate v = .ok r := by
      revert h
      cases hvv : compileBuiltinOrBooleanPredicate v with
      | error msg =>
          by_cases hdot : f = "."
          · simp [hdot, Bind.bind, Except.bind]
          · by_cases hpipe : strStartsWith f ".|"
            · cases hfp : compileBuiltinPipeline Option.none (strDrop f 2) <;>
                simp [hdot, hpipe, hfp, Bind.bind, Except.bind]
            · cases hfb : compileBuiltinOrBooleanPredicate f <;>
                simp [hdot, hpipe, hfb, Bind.bind, Except.bind]
      | ok r => exact fun _ => ⟨r, rfl⟩
    obtain ⟨r, hvv⟩ := hv
    have hrv : resolvePredicateFilter v = .ok r := by
      simp [resolvePredicateFilter, hvv]
    by_cases hdot : f = "."
    · cases hcp : compileBuiltinPipeline Option.none v with
      | some p =>
          simp [hdot, hcp, Bind.bind, Except.bind, pure, Except.pure,
            Except.isOk, Except.toBool]
      | none =>
          cases r <;>
            simp [hdot, hcp, hrv, Bind.bind, Except.bind, pure, Except.pure,
              Except.isOk, Except.toBool]
    · by_cases hpipe : strStartsWith f ".|"
      · cases hfp : compileBuiltinPipeline Option.none (strDrop f 2) with
        | some p =>
            cases hcp : compileBuiltinPipeline Option.none v with
            | some q =>
                simp [hdot, hpipe, hfp, hcp, Bind.bind, Except.bind, pure,
                  Except.pure, Except.isOk, Except.toBool]
            | none =>
                cases r <;>
                  simp [hdot, hpipe, hfp, hcp, hrv, Bind.bind, Except.bind,
                    pure, Except.pure, Except.isOk, Except.toBool]
        | none =>
            cases hcp : compileBuiltinPipeline Option.none v with
            | some q =>
                simp [hdot, hpipe, hfp, hcp, Bind.bind, Except.bind, pure,
                  Except.pure, Except.isOk, Except.toBool]
            | none =>
                cases r <;>
                  simp [hdot, hpipe, hfp, hcp, hrv, Bind.bind, Except.bind,
                    pure, Except.pure, Except.isOk, Except.toBool]
      · simp only [hdot, hpipe, Bool.false_eq_true, if_false] at h
        cases hfb : compileBuiltinOrBooleanPredicate f with
        | error msg => simp [hfb, Bind.bind, Except.bind] at h
        | ok rf =>
            have hrf : resolvePredicateFilter f = .ok rf := by
              simp [resolvePredicateFilter, hfb]
            cases hcp : compileBuiltinPipeline Option.none v with
            | some q =>
                cases rf <;>
                  simp [hdot, hpipe, hrf, hcp, Bind.bind, Except.bind, pure,
                    Except.pure, Except.isOk, Except.toBool]
            | none =>
                cases rf <;> cases r <;>
                  simp [hdot, hpipe, hrf, hcp, hrv, Bind.bind, Except.bind,
                    pure, Except.pure, Except.isOk, Except.toBool]

/-! ## Basic lemmas about the dict model -/

theorem dictGet_dictSet (d : List (String × Val)) (k : String) (v : Val) :
    dictGet (dictSet d k v) k = some v := by
  induction d with
  | nil => simp [dictSet, dictGet]
  | cons hd tl ih =>
      obtain ⟨k', v'⟩ := hd
      by_cases h : k' = k
      · simp [dictSet, dictGet, h]
      · simp [dictSet, dictGet, h, ih]

theorem dictSet_dictSet (d : List (String × Val)) (k : String) (a b : Val) :
    dictSet (dictSet d k a) k b = dictSet d k b := by
  induction d with
  | nil => simp [dictSet]
  | cons hd tl ih =>
      obtain ⟨k', v'⟩ := hd
      by_cases h : k' = k
      · simp [dictSet, h]
      · simp [dictSet, h, ih]

theorem dictSet_self (d : List (String × Val)) (k : String) (v : Val)
    (h : dictGet d k = some v) : dictSet d k v = d := by
  induction d with
  | nil => simp [dictGet] at h
  | cons hd tl ih =>
      obtain ⟨k', v'⟩ := hd
      by_cases hk : k' = k
      · simp [dictGet, hk] at h
        simp [dictSet, hk, h]
      · simp [dictGet, hk] at h
        simp [dictSet, hk, ih h]

theorem dictDel_of_not_contains (d : List (String × Val)) (k : String)
    (h : dictGet d k = Option.none) : dictDel d k = d := by
  induction d with
  | nil => simp [dictDel]
  | cons hd tl ih =>
      obtain ⟨k', v'⟩ := hd
      by_cases hk : k' = k
      · simp [dictGet, hk] at h
      · simp [dictGet, hk] at h
        simp [dictDel, hk, ih h]

/-! ## Walk decomposition lemmas -/

theorem walkTokens_append (sg : RootGet) (root : Val) (pre post : List TokenKind) :
    ∀ cur, walkTokens sg root cur (pre ++ post) =
      match walkTokens sg root cur pre with
      | .ok (.resolved v) => walkTokens sg root v post
      | .ok (.soft e) => .ok (.soft e)
      | .error e => .error e := by
  induction pre with
  | nil => intro cur; simp [walkTokens]
  | cons t rest ih =>
      intro cur
      match t with
      | .root => simpa [walkTokens] using ih root
      | .get k =>
          simp only [List.cons_append, walkTokens]
          cases resolveToken sg cur (.get k) with
          | ok v => exact ih v
          | error e =>
              by_cases hs : isSoftResolutionError e <;> simp [hs]
      | .map k =>
          simp only [List.cons_append, walkTokens]
          cases resolveToken sg cur (.map k) with
          | ok v => exact ih v
          | error e =>
              by_cases hs : isSoftResolutionError e <;> simp [hs]
      | .wildcard =>
          simp only [List.cons_append, walkTokens]
          cases resolveToken sg cur .wildcard with
          | ok v => exact ih v
          | error e =>
              by_cases hs : isSoftResolutionError e <;> simp [hs]
      | .deepWildcard =>
          simp only [List.cons_append, walkTokens]
          cases resolveToken sg cur .deepWildcard with
          | ok v => exact ih v
          | error e =>
              by_cases hs : isSoftResolutionError e <;> simp [hs]
      | .index k i =>
          simp only [List.cons_append, walkTokens]
          cases resolveToken sg cur (.index k i) with
          | ok v => exact ih v
          | error e =>
              by_cases hs : isSoftResolutionError e <;> simp [hs]
      | .slice k a b =>
          simp only [List.cons_append, walkTokens]
          cases resolveToken sg cur (.slice k a b) with
          | ok v => exact ih v
          | error e =>
              by_cases hs : isSoftResolutionError e <;> simp [hs]
      | .filter lk f op v =>
          simp only [List.cons_append, walkTokens]
          cases resolveToken sg cur (.filter lk f op v) with
          | ok w => exact ih w
          | error e =>
              by_cases hs : isSoftResolutionError e <;> simp [hs]

theorem walkTokens_error_not_soft (sg : RootGet) (root : Val)
    (toks : List TokenKind) :
    ∀ cur e, walkTokens sg root cur toks = .error e →
      isSoftResolutionError e = false := by
  induction toks with
  | nil => intro cur e h; simp [walkTokens] at h
  | cons t rest ih =>
      intro cur e h
      have step : ∀ (tok : TokenKind) (cur : Val),
          (match resolveToken sg cur tok with
            | .ok v => walkTokens sg root v rest
            | .error e0 =>
                if isSoftResolutionError e0 then .ok (.soft e0)
                else .error e0) = (.error e : PyResult WalkOutcome) →
          isSoftResolutionError e = false := by
        intro tok cur
        cases hr : resolveToken sg cur tok with
        | ok w => exact fun h' => ih w e h'
        | error e' =>
            by_cases hs : isSoftResolutionError e'
            · simp [hs]
            · simp only [hs, if_false, Bool.false_eq_true]
              intro he
              injection he with he'
              subst he'
              simpa using hs
      match t with
      | .root =>
          simp only [walkTokens] at h
          exact ih root e h
      | .get k => exact step (.get k) cur (by simpa [walkTokens] using h)
      | .map k => exact step (.map k) cur (by simpa [walkTokens] using h)
      | .wildcard => exact step .wildcard cur (by simpa [walkTokens] using h)
      | .deepWildcard =>
          exact step .deepWildcard cur (by simpa [walkTokens] using h)
      | .index k i =>
          exact step (.index k i) cur (by simpa [walkTokens] using h)
      | .slice k a b =>
          exact step (.slice k a b) cur (by simpa [walkTokens] using h)
      | .filter lk f op v =>
          exact step (.filter lk f op v) cur (by simpa [walkTokens] using h)

theorem walkTokens_cons_nonroot (sg : RootGet) (root cur : Val)
    (t : TokenKind) (rest : List TokenKind) (hnr : t.isRoot = false) :
    walkTokens sg root cur (t :: rest) =
      match resolveToken sg cur t with
      | .ok v => walkTokens sg root v rest
      | .error e =>
          if isSoftResolutionError e then .ok (.soft e) else .error e := by
  cases t <;> simp [TokenKind.isRoot] at hnr ⊢ <;> rfl

theorem ensurePathResolves_error_not_soft (sg : RootGet) (data : Val)
    (tokens : List TokenKind) (upto : Nat) (e : PyErrKind)
    (h : ensurePathResolves sg data tokens upto = .error e) :
    isSoftResolutionError e = false := by
  unfold ensurePathResolves at h
  revert h
  cases hw : walkTokens sg data data (tokens.take upto) with
  | ok o =>
      cases o with
      | resolved v => simp
      | soft e' =>
          intro h
          injection h with h'
          subst h'
          rfl
  | error e' =>
      intro h
      injection h with h'
      subst h'
      exact walkTokens_error_not_soft sg data _ _ _ hw

/-- On a transform-free, non-`"."` path, GET is the shared token walk with
the lenient-default / strict-error tail. -/
theorem rustGet_eq_walk (t dflt : Val) (p : String) (strict : Bool)
    (hsp : splitPathAndTransform p = (p, Option.none)) (hdot : p ≠ ".") :
    rustGet t p dflt strict = (do
      let tokens ← parsePath p
      match ← walkTokens (sgFor t) t t tokens with
      | .resolved cur => .ok cur
      | .soft _ => if strict then .error .resolutionErr else .ok dflt) := by
  unfold rustGet rustGetCore
  rw [hsp]
  simp only [hdot, if_false]

/-! ## C6: out-of-range index reads are hard errors -/

theorem resolveIndexToken_out_of_range (d : List (String × Val)) (k : String)
    (i : Int) (xs : List Val) (hk : dictGet d k = some (.list xs))
    (hoor : i < -(xs.length : Int) ∨ i ≥ (xs.length : Int)) :
    resolveIndexToken (.dict d) k i = .error .indexErr := by
  simp only [resolveIndexToken, hk]
  have hcond : (decide (i ≥ -((xs.length : Int))) &&
      decide (i < (xs.length : Int))) = false := by
    rcases hoor with h | h
    · have : ¬ (i ≥ -((xs.length : Int))) := by omega
      simp [this]
    · have : ¬ (i < (xs.length : Int)) := by omega
      simp [this]
  simp [hcond]

/-- C6: when the path prefix resolves to a mapping whose key `k` holds a
list, a GET or EXISTS through `Index{k,i}` with `i` outside the Python
index range raises `IndexError` — never swallowed into the default or
`false`, in lenient as well as strict mode. -/
theorem C6_index_out_of_range_hard (t dflt : Val) (p : String)
    (pre rest : List TokenKind) (k : String) (i : Int)
    (d : List (String × Val)) (xs : List Val) (strict : Bool)
    (hsp : splitPathAndTransform p = (p, Option.none)) (hdot : p ≠ ".")
    (hp : parsePath p = .ok (pre ++ .index k i :: rest))
    (hw : walkTokens (sgFor t) t t pre = .ok (.resolved (.dict d)))
    (hk : dictGet d k = some (.list xs))
    (hoor : i < -(xs.length : Int) ∨ i ≥ (xs.length : Int)) :
    rustGet t p dflt strict = .error .indexErr ∧
      rustExists t p strict = .error .indexErr := by
  have hwalk : walkTokens (sgFor t) t t (pre ++ .index k i :: rest) =
      .error .indexErr := by
    rw [walkTokens_append (sgFor t) t pre (.index k i :: rest) t, hw]
    show walkTokens (sgFor t) t (.dict d) (.index k i :: rest) =
      .error .indexErr
    rw [walkTokens_cons_nonroot (sgFor t) t (.dict d) (.index k i) rest rfl]
    simp [resolveToken, resolveIndexToken_out_of_range d k i xs hk hoor,
      isSoftResolutionError]
  constructor
  · rw [rustGet_eq_walk t dflt p strict hsp hdot, hp]
    simp [Bind.bind, Except.bind, hwalk]
  · unfold rustExists
    rw [hp]
    simp [Bind.bind, Except.bind, hwalk]

theorem C6_index_out_of_range_hard_witness :
    rustGet (.dict [("a", .list [.int 1])]) "a[5]" (.str "D") false =
        .error .indexErr ∧
      rustExists (.dict [("a", .list [.int 1])]) "a[5]" false =
        .error .indexErr := by
  exact C6_index_out_of_range_hard (.dict [("a", .list [.int 1])]) (.str "D")
    "a[5]" [] [] "a" 5 [("a", .list [.int 1])] [.int 1] false
    (by decide) (by decide) (by decide) (by decide) (by decide)
    (Or.inr (by decide))

/-! ## C8: the `$bool` built-in filter -/

/-- C8: on strings, `$bool` is true exactly for the trimmed, case-folded
values `"1"`, `"true"`, `"yes"`, `"y"`, `"on"`; on every non-string value
it returns ordinary Python truthiness. -/
theorem C8_bool_filter :
    (∀ s : String, applyBuiltinFilter (.str s) .bool =
      .ok (.bool (["1", "true", "yes", "y", "on"].contains
        (strToLower (strTrim s))))) ∧
    (∀ v : Val, v.isStr = false →
      applyBuiltinFilter v .bool = .ok (.bool (pyTruthy v))) := by
  constructor
  · intro s
    rfl
  · intro v hv
    cases v with
    | str s => simp [Val.isStr] at hv
    | none => rfl
    | bool b => rfl
    | int n => rfl
    | list xs => rfl
    | dict xs => rfl

theorem C8_bool_filter_witness :
    applyBuiltinFilter (.str " YES ") .bool = .ok (.bool true) ∧
      applyBuiltinFilter (.str "nope") .bool = .ok (.bool false) ∧
      applyBuiltinFilter (.int 3) .bool = .ok (.bool true) := by
  refine ⟨(C8_bool_filter.1 " YES ").trans (by decide),
    (C8_bool_filter.1 "nope").trans (by decide),
    (C8_bool_filter.2 (.int 3) (by decide)).trans (by decide)⟩

/-! ## C9: a missing filter list key reads as an empty list -/

/-- C9: when a Filter token's list key is missing from the current mapping,
GET resolves to an empty list (in lenient *and* strict mode, so no error is
raised) and EXISTS returns true. -/
theorem C9_missing_filter_key (d : List (String × Val))
    (p lk f op v : String) (dflt : Val) (strict : Bool)
    (hk : dictGet d lk = Option.none)
    (hsp : splitPathAndTransform p = (p, Option.none)) (hdot : p ≠ ".")
    (hp : parsePath p = .ok [.filter lk f op v]) :
    rustGet (.dict d) p dflt strict = .ok (.list []) ∧
      rustExists (.dict d) p strict = .ok true := by
  have hvalid : validateFilterToken lk f op v = .ok () := by
    unfold parsePath at hp
    by_cases hemp : strIsEmpty p
    · simp [hemp] at hp
    · simp only [hemp, Bool.false_eq_true, if_false] at hp
      obtain ⟨raw, _, hstep⟩ :=
        mapM_ok_mem parsePathStep _ _ hp (.filter lk f op v) (by simp)
      exact parsePathStep_filter_validate raw lk f op v hstep
  obtain ⟨m, hm⟩ := exists_ok_of_isOk _
    (compileFilterMatcher_isOk_of_validate lk f op v hvalid)
  have hres : resolveFilterToken (sgFor (.dict d)) (.dict d) lk f op v =
      .ok (.list []) := by
    unfold resolveFilterToken
    simp [hm, hk, Bind.bind, Except.bind, List.foldlM, pure, Except.pure]
  have hwalk : walkTokens (sgFor (.dict d)) (.dict d) (.dict d)
      [.filter lk f op v] = .ok (.resolved (.list [])) := by
    rw [walkTokens_cons_nonroot (sgFor (.dict d)) (.dict d) (.dict d)
      (.filter lk f op v) [] rfl]
    simp [resolveToken, hres, walkTokens]
  constructor
  · rw [rustGet_eq_walk (.dict d) dflt p strict hsp hdot, hp]
    simp [Bind.bind, Except.bind, hwalk]
  · unfold rustExists
    rw [hp]
    simp [Bind.bind, Except.bind, hwalk]

theorem C9_missing_filter_key_witness :
    rustGet (.dict [("a", .int 1)]) "xs[?k==2]" (.str "D") false =
        .ok (.list []) ∧
      rustExists (.dict [("a", .int 1)]) "xs[?k==2]" false = .ok true := by
  exact C9_missing_filter_key [("a", .int 1)] "xs[?k==2]" "xs" "k" "==" "2"
    (.str "D") false (by decide) (by decide) (by decide) (by decide)

/-! ## C10: a SET on a non-dict root never mutates it -/

/-- The first token is a Get/Map/Index/Slice write. -/
def headIsPlainWrite (toks : List TokenKind) : Bool :=
  match toks.head? with
  | some (.get _) => true
  | some (.map _) => true
  | some (.index _ _) => true
  | some (.slice _ _ _) => true
  | _ => false

/-- C10: a SET whose first token is Get, Map, Index or Slice applied to a
non-dict root returns the root unchanged for every option combination (the
fresh dict substituted by `coerce_current_to_dict_for_write` is discarded
by `RustDictWalk::set`). -/
theorem C10_nondict_root_set_unchanged (t v u : Val) (p : String)
    (toks : List TokenKind) (opts : WriteOptions) (strict : Bool)
    (hp : parsePath p = .ok toks)
    (hhead : headIsPlainWrite toks = true)
    (hnd : t.isDict = false)
    (hok : rustSet t p v opts strict = .ok u) : u = t := by
  unfold rustSet at hok
  rw [hp] at hok
  simp only [Bind.bind, Except.bind] at hok
  have hfin : ∀ r : Val,
      (pure (match toks.head? with
        | some (.get _) => if t.isDict = true then r else t
        | some (.map _) => if t.isDict = true then r else t
        | some (.index _ _) => if t.isDict = true then r else t
        | some (.slice _ _ _) => if t.isDict = true then r else t
        | some _ => r
        | Option.none => t) : PyResult Val) = .ok u → u = t := by
    intro r h
    simp only [pure, Except.pure] at h
    injection h with h'
    unfold headIsPlainWrite at hhead
    revert hhead h'
    cases toks.head? with
    | none => simp
    | some tk =>
        cases tk <;> simp [hnd] <;> intro h' <;> exact h'.symm
  cases hroot : pathUsesRootToken toks with
  | true => rw [hroot] at hok; simp at hok
  | false =>
      rw [hroot] at hok
      simp only [Bool.false_eq_true, if_false] at hok
      split at hok
      all_goals
        first
          | simp at hok
          | exact hfin _ hok
          | (split at hok
             all_goals
               first
                 | simp at hok
                 | exact hfin _ hok
                 | (split at hok <;>
                     first
                       | simp at hok
                       | exact hfin _ hok))

theorem C10_nondict_root_set_unchanged_witness :
    rustSet (.list [.int 1]) "a" (.int 2) defaultWriteOptions false =
        .ok (.list [.int 1]) ∧
      (Val.list [.int 1]) = .list [.int 1] := by
  refine ⟨by decide, ?_⟩
  exact C10_nondict_root_set_unchanged (.list [.int 1]) (.int 2)
    (.list [.int 1]) "a" [.get "a"] defaultWriteOptions false (by decide)
    (by decide) (by decide) (by decide)

end DictWalk

namespace DictWalk

/-! ## C1: the set/get round-trip (counterexample part) -/

/-- C1 counterexample: with `create_missing=true` and the single-Get path
`"a"` (which selects exactly one node), storing the string `"$inc"` does
not round-trip: `resolve_new_value` interprets any `$`-pipeline string as a
transform of the existing value, so SET stores 6 and GET returns 6, not
the stored string. -/
theorem C1_counterexample :
    rustSet (.dict [("a", .int 5)]) "a" (.str "$inc") defaultWriteOptions
        false = .ok (.dict [("a", .int 6)]) ∧
      rustGet (.dict [("a", .int 6)]) "a" .none false = .ok (.int 6) ∧
      (Val.int 6) ≠ .str "$inc" :=
  ⟨by decide, by decide, by decide⟩

/-! ## C2: exists/get agreement -/

/-- C2 counterexample: for the identity path `"."`, lenient EXISTS returns
`false` (the path parses to an empty-step token list whose steps fail to
parse — EXISTS has no `"."` special case) while GET returns the whole tree,
which differs from the sentinel. -/
theorem C2_counterexample :
    rustExists (.dict [("a", .int 1)]) "." false = .ok false ∧
      rustGet (.dict [("a", .int 1)]) "." (.str "S") false =
        .ok (.dict [("a", .int 1)]) ∧
      (Val.dict [("a", .int 1)]) ≠ .str "S" :=
  ⟨by decide, by decide, by decide⟩

/-- C2 (amended): on a transform-free path other than `"."`, lenient
EXISTS returns `true` iff lenient GET returns a value different from the
sentinel, provided the token walk itself never produces the sentinel (the
spec's "sentinel not present in t").  The original claim fails for the
identity path `"."` and for paths carrying a `|$pipeline` output
transform, where GET post-processes the walked value but EXISTS parses the
raw path string. -/
theorem C2_exists_get_agree (t sentinel : Val) (p : String)
    (toks : List TokenKind)
    (hp : parsePath p = .ok toks)
    (hsp : splitPathAndTransform p = (p, Option.none)) (hdot : p ≠ ".")
    (hsent : walkTokens (sgFor t) t t toks ≠ .ok (.resolved sentinel)) :
    rustExists t p false = .ok true ↔
      ∃ g, rustGet t p sentinel false = .ok g ∧ g ≠ sentinel := by
  have hget := rustGet_eq_walk t sentinel p false hsp hdot
  rw [hp] at hget
  simp only [Bind.bind, Except.bind] at hget
  unfold rustExists
  rw [hp]
  simp only [Bind.bind, Except.bind]
  cases hw : walkTokens (sgFor t) t t toks with
  | error e =>
      rw [hw] at hget
      constructor
      · intro h
        exact absurd (show (Except.error e : PyResult Bool) = .ok true from h)
          (by simp)
      · rintro ⟨g, hg, _⟩
        rw [hget] at hg
        exact absurd (show (Except.error e : PyResult Val) = .ok g from hg)
          (by simp)
  | ok o =>
      cases o with
      | resolved cur =>
          rw [hw] at hget
          have hget2 : rustGet t p sentinel false = .ok cur := hget
          have hne : cur ≠ sentinel := by
            intro hcs
            exact hsent (by rw [hw, hcs])
          constructor
          · intro _
            exact ⟨cur, hget2, hne⟩
          · intro _
            rfl
      | soft e =>
          rw [hw] at hget
          have hget2 : rustGet t p sentinel false = .ok sentinel := hget
          constructor
          · intro h
            exact absurd
              (show (Except.ok false : PyResult Bool) = .ok true from h)
              (by simp)
          · rintro ⟨g, hg, hgne⟩
            rw [hget2] at hg
            injection hg with hg'
            exact absurd hg'.symm hgne

theorem C2_exists_get_agree_witness :
    rustExists (.dict [("a", .int 1)]) "a" false = .ok true ↔
      ∃ g, rustGet (.dict [("a", .int 1)]) "a" (.str "S") false = .ok g ∧
        g ≠ .str "S" :=
  C2_exists_get_agree (.dict [("a", .int 1)]) (.str "S") "a" [.get "a"]
    (by decide) (by decide) (by decide) (by decide)

/-! ## C3: strict-mode write atomicity -/

/-- C3 counterexample: the claim says a failed strict pre-resolution
"raises a resolution error", but a *hard* failure of the walk (here an
out-of-range index) propagates as itself — strict SET on `"a[5].b"` over
`{"a": [1]}` raises `IndexError`, not a resolution error. -/
theorem C3_counterexample :
    rustSet (.dict [("a", .list [.int 1])]) "a[5].b" (.int 7)
        defaultWriteOptions true = .error .indexErr ∧
      PyErrKind.indexErr ≠ .resolutionErr :=
  ⟨by decide, by decide⟩

/-- C3 (amended): when the strict pre-resolution fails (SET checks the
path up to but not including the terminal token, UNSET checks the full
path), the call returns exactly the pre-resolution error — which is never
a soft error, soft walk failures having been converted to hard resolution
errors by `ensure_path_resolves` — and the write recursion is never
reached, so in the source the tree is still unmutated when the error is
raised.  (The error is `DictWalkResolutionError` only for soft failures;
hard failures such as `IndexError` surface as themselves.) -/
theorem C3_strict_write_atomicity (t v : Val) (p : String)
    (toks : List TokenKind) (opts : WriteOptions)
    (hp : parsePath p = .ok toks)
    (hroot : pathUsesRootToken toks = false)
    (hne : toks ≠ []) :
    (∀ e, ensurePathResolves (sgFor t) t toks (toks.length - 1) = .error e →
      rustSet t p v opts true = .error e ∧ isSoftResolutionError e = false)
    ∧ ∀ e, ensurePathResolves (sgFor t) t toks toks.length = .error e →
      rustUnset t p true = .error e ∧ isSoftResolutionError e = false := by
  have hni : toks.isEmpty = false := by
    cases toks with
    | nil => exact absurd rfl hne
    | cons a l => rfl
  constructor
  · intro e he
    refine ⟨?_, ensurePathResolves_error_not_soft (sgFor t) t toks _ e he⟩
    unfold rustSet
    rw [hp]
    simp only [Bind.bind, Except.bind, hroot, Bool.false_eq_true, if_false,
      hni, Bool.not_false, Bool.and_self, if_true, he]
  · intro e he
    refine ⟨?_, ensurePathResolves_error_not_soft (sgFor t) t toks _ e he⟩
    unfold rustUnset
    rw [hp]
    simp only [Bind.bind, Except.bind, hroot, Bool.false_eq_true, if_false,
      hni, Bool.not_false, Bool.and_self, if_true, he]

theorem C3_strict_write_atomicity_witness :
    (rustSet (.dict [("a", .list [.int 1])]) "a[5].b" (.int 7)
        defaultWriteOptions true = .error .indexErr ∧
      isSoftResolutionError .indexErr = false) ∧
      rustUnset (.dict [("a", .list [.int 1])]) "a[5].b" true =
          .error .indexErr ∧
        isSoftResolutionError .indexErr = false :=
  ⟨(C3_strict_write_atomicity (.dict [("a", .list [.int 1])]) (.int 7)
      "a[5].b" [.index "a" 5, .get "b"] defaultWriteOptions (by decide)
      (by decide) (by decide)).1 .indexErr (by decide),
    (C3_strict_write_atomicity (.dict [("a", .list [.int 1])]) (.int 7)
      "a[5].b" [.index "a" 5, .get "b"] defaultWriteOptions (by decide)
      (by decide) (by decide)).2 .indexErr (by decide)⟩

end DictWalk

namespace DictWalk

/-! ## C5: SET through an Index token -/

/-- C5 counterexample: the claim restricts the `create_missing` guard to
the padding case (`i ≥ len`), but `set_index_token` skips *every*
non-negative index when `create_missing` is unset — here `i = 0` is in
range for the one-element list, a Get-token write with the same options
does write, yet the indexed write is a no-op. -/
theorem C5_counterexample :
    rustSet (.dict [("a", .list [.int 5])]) "a[0]" (.int 9)
        ⟨false, true, true⟩ false = .ok (.dict [("a", .list [.int 5])]) ∧
      rustSet (.dict [("b", .int 5)]) "b" (.int 9)
        ⟨false, true, true⟩ false = .ok (.dict [("b", .int 9)]) ∧
      (Val.dict [("a", .list [.int 5])]) ≠
        .dict [("a", .list [.int 9])] :=
  ⟨by decide, by decide, by decide⟩

/-- C5 (amended): for a mapping holding a list at `key`,
`set_index_token` (a) is a no-op when `i < -len`; (b) is a no-op whenever
`i ≥ 0` and `create_missing` is unset, even for in-range indexes; (c) for
`i ≥ 0` with `create_missing`, pads the list with `null` fillers up to
index `i` and writes the resolved value there (terminal token); (d) for
in-range negative `i`, writes the resolved value at the Python-style
position `len + i` (terminal token), with no `create_missing`
requirement. -/
theorem C5_set_index_cases (sg : RootGet) (opts : WriteOptions) (nv : Val)
    (d : List (String × Val)) (key : String) (i : Int) (xs : List Val)
    (recurse : Val → PyResult Val)
    (hd : dictGet d key = some (.list xs)) :
    (∀ nk, i < -(xs.length : Int) →
      setIndexToken sg opts nv nk recurse (.dict d) key i = .ok (.dict d))
    ∧ (∀ nk, 0 ≤ i → opts.createMissing = false →
      setIndexToken sg opts nv nk recurse (.dict d) key i = .ok (.dict d))
    ∧ (∀ r, 0 ≤ i → opts.createMissing = true →
      resolveNewValue sg
          (some ((xs ++ List.replicate (i.toNat + 1 - xs.length)
            Val.none).getD i.toNat Val.none)) nv = .ok r →
      setIndexToken sg opts nv Option.none recurse (.dict d) key i =
        .ok (.dict (dictSet d key (.list
          ((xs ++ List.replicate (i.toNat + 1 - xs.length) Val.none).set
            i.toNat r)))))
    ∧ ∀ r, -(xs.length : Int) ≤ i → i < 0 →
      resolveNewValue sg
          (some (xs.getD ((xs.length : Int) + i).toNat Val.none)) nv =
        .ok r →
      setIndexToken sg opts nv Option.none recurse (.dict d) key i =
        .ok (.dict (dictSet d key (.list
          (xs.set ((xs.length : Int) + i).toNat r)))) := by
  have hcoerce : coerceCurrentToDictForWrite (.dict d) opts = .dict d := by
    simp [coerceCurrentToDictForWrite, Val.isDict]
  have hfetch : fetchListForWrite d key opts = some xs := by
    simp [fetchListForWrite, hd]
  refine ⟨?_, ?_, ?_, ?_⟩
  · intro nk hlt
    have h1 : (decide (i < 0) && decide (i < -(xs.length : Int))) = true := by
      simp only [Bool.and_eq_true, decide_eq_true_eq]
      omega
    simp only [setIndexToken, hcoerce, hfetch, h1, if_true]
    rw [dictSet_self d key (.list xs) hd]
  · intro nk hge hcm
    have h1 : (decide (i < 0) && decide (i < -(xs.length : Int))) = false := by
      have : ¬ i < 0 := by omega
      simp [this]
    have h2 : (decide (i ≥ 0) && !opts.createMissing) = true := by
      rw [hcm]
      simp only [Bool.not_false, Bool.and_true, decide_eq_true_eq]
      omega
    simp only [setIndexToken, hcoerce, hfetch, h1, Bool.false_eq_true,
      if_false, h2, if_true]
    rw [dictSet_self d key (.list xs) hd]
  · intro r hge hcm hres
    have h1 : (decide (i < 0) && decide (i < -(xs.length : Int))) = false := by
      have : ¬ i < 0 := by omega
      simp [this]
    have h2 : (decide (i ≥ 0) && !opts.createMissing) = false := by
      rw [hcm]
      simp
    simp only [setIndexToken, hcoerce, hfetch, h1, Bool.false_eq_true,
      if_false, h2, if_pos (show i ≥ 0 from hge),
      if_neg (show ¬ i < 0 by omega), Option.isSome_none,
      Bind.bind, Except.bind, hres]
  · intro r hle hlt hres
    have h1 : (decide (i < 0) && decide (i < -(xs.length : Int))) = false := by
      have : ¬ i < -(xs.length : Int) := by omega
      simp [this]
    have h2 : (decide (i ≥ 0) && !opts.createMissing) = false := by
      have : ¬ i ≥ 0 := by omega
      simp [this]
    simp only [setIndexToken, hcoerce, hfetch, h1, Bool.false_eq_true,
      if_false, h2, if_neg (show ¬ i ≥ 0 by omega),
      if_pos (show i < 0 from hlt), Option.isSome_none,
      Bind.bind, Except.bind, hres]

theorem C5_set_index_cases_witness :
    setIndexToken (sgFor (.dict [])) ⟨false, true, true⟩ (.int 9)
        Option.none (fun v => .ok v)
        (.dict [("k", .list [.int 5])]) "k" 0 =
      .ok (.dict [("k", .list [.int 5])]) ∧
    setIndexToken (sgFor (.dict [])) ⟨false, true, true⟩ (.int 9)
        Option.none (fun v => .ok v)
        (.dict [("k", .list [.int 5])]) "k" (-1) =
      .ok (.dict (dictSet [("k", .list [.int 5])] "k"
        (.list ([Val.int 5].set ((1 : Int) + (-1)).toNat (.int 9))))) ∧
    setIndexToken (sgFor (.dict [])) ⟨false, true, true⟩ (.int 9)
        Option.none (fun v => .ok v)
        (.dict [("k", .list [.int 5])]) "k" (-7) =
      .ok (.dict [("k", .list [.int 5])]) :=
  ⟨(C5_set_index_cases (sgFor (.dict [])) ⟨false, true, true⟩ (.int 9)
      [("k", .list [.int 5])] "k" 0 [.int 5] (fun v => .ok v)
      (by decide)).2.1 Option.none (by decide) rfl,
    (C5_set_index_cases (sgFor (.dict [])) ⟨false, true, true⟩ (.int 9)
      [("k", .list [.int 5])] "k" (-1) [.int 5] (fun v => .ok v)
      (by decide)).2.2.2 (.int 9) (by decide) (by decide) rfl,
    (C5_set_index_cases (sgFor (.dict [])) ⟨false, true, true⟩ (.int 9)
      [("k", .list [.int 5])] "k" (-7) [.int 5] (fun v => .ok v)
      (by decide)).1 Option.none (by decide)⟩

end DictWalk

namespace DictWalk

/-! ## C4: filter-miss creation on SET -/

theorem rewriteMatched_length (step : Val → PyResult Val) :
    ∀ (xs : List Val) (ms : List Bool) (ys : List Val),
      rewriteMatched step xs ms = .ok ys → ys.length = xs.length := by
  intro xs
  induction xs with
  | nil =>
      intro ms ys h
      simp only [rewriteMatched] at h
      injection h with h'
      rw [← h']
  | cons x xs ih =>
      intro ms ys h
      simp only [rewriteMatched, Bind.bind, Except.bind] at h
      rcases ms with _ | ⟨m, ms'⟩
      · simp only [List.headD_nil, Bool.false_eq_true, if_false, pure,
          Except.pure, List.drop_nil] at h
        revert h
        cases hrest : rewriteMatched step xs [] with
        | error e =>
            intro h
            exact absurd h (by simp)
        | ok rest =>
            intro h
            injection h with h'
            rw [← h']
            simp only [List.length_cons, ih [] rest hrest]
      · simp only [List.headD_cons, List.drop_succ_cons, List.drop_zero] at h
        cases m with
        | false =>
            simp only [Bool.false_eq_true, if_false, pure, Except.pure] at h
            revert h
            cases hrest : rewriteMatched step xs ms' with
            | error e =>
                intro h
                exact absurd h (by simp)
            | ok rest =>
                intro h
                injection h with h'
                rw [← h']
                simp only [List.length_cons, ih ms' rest hrest]
        | true =>
            simp only [if_true] at h
            revert h
            cases hstep : step x with
            | error e =>
                intro h
                exact absurd h (by simp)
            | ok x' =>
                cases hrest : rewriteMatched step xs ms' with
                | error e =>
                    intro h
                    exact absurd h (by simp)
                | ok rest =>
                    intro h
                    simp only [pure, Except.pure] at h
                    injection h with h'
                    rw [← h']
                    simp only [List.length_cons, ih ms' rest hrest]

/-- The shared tail of `set_filter_token`: rewrite the (possibly extended)
list and store it back under the list key. -/
theorem filterWriteTail (step : Val → PyResult Val) (d : List (String × Val))
    (lk : String) (xs2 : List Val) (bits2 : List Bool) (res : Val)
    (hres : (do
        let xs' ← rewriteMatched step xs2 bits2
        (.ok (.dict (dictSet d lk (.list xs'))) : PyResult Val)) = .ok res) :
    ∃ xs', rewriteMatched step xs2 bits2 = .ok xs' ∧
      res = .dict (dictSet d lk (.list xs')) ∧ xs'.length = xs2.length := by
  simp only [Bind.bind, Except.bind] at hres
  revert hres
  cases hrw : rewriteMatched step xs2 bits2 with
  | error e =>
      intro hres
      exact absurd hres (by simp)
  | ok xs' =>
      intro hres
      injection hres with h
      exact ⟨xs', rfl, h.symm, rewriteMatched_length step xs2 bits2 xs' hrw⟩

/-- C4 counterexample: the spec's concrete scenario is wrong about the
final element.  The created stub `{"k": "2"}` is immediately rewritten by
the terminal step with the full new value, so the result is
`{"xs": [{"k": 1}, {"k": 2, "v": true}]}`, not
`{"xs": [{"k": 1}, {"k": 2}]}`. -/
theorem C4_counterexample :
    rustSet (.dict [("xs", .list [.dict [("k", .int 1)]])]) "xs[?k==2]"
        (.dict [("k", .int 2), ("v", .bool true)]) defaultWriteOptions
        false =
      .ok (.dict [("xs", .list [.dict [("k", .int 1)],
        .dict [("k", .int 2), ("v", .bool true)]])]) ∧
      (Val.dict [("xs", .list [.dict [("k", .int 1)],
          .dict [("k", .int 2), ("v", .bool true)]])]) ≠
        .dict [("xs", .list [.dict [("k", .int 1)],
          .dict [("k", .int 2)]])] :=
  ⟨by decide, by decide⟩

/-- C4 (amended): the concrete scenario yields
`{"xs": [{"k": 1}, {"k": 2, "v": true}]}` (the created `{field: value_text}`
stub is then rewritten with the resolved new value); with
`create_filter_match=false` the tree is unchanged; and in general a
successful `set_filter_token` stores back a list that grew by exactly one
element only when nothing matched, the compiled field is a bare key, the
compiled value is a literal, the operator is `==`, and both
`create_missing` and `create_filter_match` are set — otherwise the list
length is preserved. -/
theorem C4_filter_miss_creation :
    (rustSet (.dict [("xs", .list [.dict [("k", .int 1)]])]) "xs[?k==2]"
        (.dict [("k", .int 2), ("v", .bool true)]) defaultWriteOptions
        false =
      .ok (.dict [("xs", .list [.dict [("k", .int 1)],
        .dict [("k", .int 2), ("v", .bool true)]])])) ∧
    (rustSet (.dict [("xs", .list [.dict [("k", .int 1)]])]) "xs[?k==2]"
        (.dict [("k", .int 2), ("v", .bool true)]) ⟨true, false, true⟩
        false =
      .ok (.dict [("xs", .list [.dict [("k", .int 1)]])])) ∧
    ∀ (sg : RootGet) (opts : WriteOptions) (nv : Val)
      (nextKind : Option TokenKind) (recurse : Val → PyResult Val)
      (d : List (String × Val)) (lk f op v : String) (xs : List Val)
      (m : CompiledFilterMatcher) (bits : List Bool) (res : Val),
      dictGet d lk = some (.list xs) →
      compileFilterMatcher f v = .ok m →
      xs.mapM (filterMatchesCompiled (some sg) op m) = .ok bits →
      setFilterToken sg opts nv nextKind recurse (.dict d) lk f op v =
        .ok res →
      ∃ xs', res = .dict (dictSet d lk (.list xs')) ∧
        (xs'.length = xs.length ∨
          (xs'.length = xs.length + 1 ∧ bits.any id = false ∧
            (∃ name, m.fieldResolver = .key name) ∧
            (∃ lv, m.valueMatcher = .literal lv) ∧
            op = "==" ∧ opts.createMissing = true ∧
            opts.createFilterMatch = true)) := by
  refine ⟨by decide, by decide, ?_⟩
  intro sg opts nv nextKind recurse d lk f op v xs m bits res hd hm hbits
    hres
  have hfetch : fetchListForWrite d lk opts = some xs := by
    simp [fetchListForWrite, hd]
  obtain ⟨fr, vm, raw⟩ := m
  simp only [setFilterToken, hfetch, Bind.bind, Except.bind, hm,
    hbits] at hres
  cases fr with
  | key name =>
      cases vm with
      | literal lv =>
          simp only [fieldUsesItemRootFlag, fieldPathFilterFlag,
            valuePathFilterFlag, Bool.not_false, Bool.not_true,
            Bool.and_true, Bool.true_and, Bool.and_false, Bool.false_and,
            Bool.false_eq_true, if_false] at hres
          by_cases hcond : (!bits.any id && decide (op = "==") &&
            opts.createMissing && opts.createFilterMatch) = true
          · rw [if_pos hcond] at hres
            rw [if_pos hcond] at hres
            obtain ⟨xs', _, hrs, hlen⟩ :=
              filterWriteTail _ d lk _ _ res hres
            refine ⟨xs', hrs, Or.inr ?_⟩
            simp only [Bool.and_eq_true, decide_eq_true_eq] at hcond
            obtain ⟨⟨⟨hna, hop⟩, hcm⟩, hcf⟩ := hcond
            have hany : bits.any id = false := by
              revert hna
              cases bits.any id <;> simp
            rw [hlen]
            simp only [List.length_append, List.length_cons,
              List.length_nil]
            exact ⟨trivial, hany, ⟨name, rfl⟩, ⟨lv, rfl⟩, hop, hcm, hcf⟩
          · rw [if_neg hcond] at hres
            rw [if_neg hcond] at hres
            obtain ⟨xs', _, hrs, hlen⟩ :=
              filterWriteTail _ d lk _ _ res hres
            exact ⟨xs', hrs, Or.inl hlen⟩
      | builtinPipeline pp =>
          simp only [fieldUsesItemRootFlag, fieldPathFilterFlag,
            valuePathFilterFlag, Bool.not_false, Bool.not_true,
            Bool.and_true, Bool.true_and, Bool.and_false, Bool.false_and,
            Bool.false_eq_true, if_false] at hres
          obtain ⟨xs', _, hrs, hlen⟩ := filterWriteTail _ d lk _ _ res hres
          exact ⟨xs', hrs, Or.inl hlen⟩
      | predicateExpr pe =>
          simp only [fieldUsesItemRootFlag, fieldPathFilterFlag,
            valuePathFilterFlag, Bool.not_false, Bool.not_true,
            Bool.and_true, Bool.true_and, Bool.and_false, Bool.false_and,
            Bool.false_eq_true, if_false] at hres
          obtain ⟨xs', _, hrs, hlen⟩ := filterWriteTail _ d lk _ _ res hres
          exact ⟨xs', hrs, Or.inl hlen⟩
  | currentItem =>
      cases vm <;>
        · simp only [fieldUsesItemRootFlag, fieldPathFilterFlag,
            valuePathFilterFlag, Bool.not_false, Bool.not_true,
            Bool.and_true, Bool.true_and, Bool.and_false, Bool.false_and,
            Bool.false_eq_true, if_false] at hres
          obtain ⟨xs', _, hrs, hlen⟩ := filterWriteTail _ d lk _ _ res hres
          exact ⟨xs', hrs, Or.inl hlen⟩
  | currentItemBuiltinPipeline pp =>
      cases vm <;>
        · simp only [fieldUsesItemRootFlag, fieldPathFilterFlag,
            valuePathFilterFlag, Bool.not_false, Bool.not_true,
            Bool.and_true, Bool.true_and, Bool.and_false, Bool.false_and,
            Bool.false_eq_true, if_false] at hres
          obtain ⟨xs', _, hrs, hlen⟩ := filterWriteTail _ d lk _ _ res hres
          exact ⟨xs', hrs, Or.inl hlen⟩
  | currentItemTransform pt =>
      cases vm <;>
        · simp only [fieldUsesItemRootFlag, fieldPathFilterFlag,
            valuePathFilterFlag, Bool.not_false, Bool.not_true,
            Bool.and_true, Bool.true_and, Bool.and_false, Bool.false_and,
            Bool.false_eq_true, if_false] at hres
          obtain ⟨xs', _, hrs, hlen⟩ := filterWriteTail _ d lk _ _ res hres
          exact ⟨xs', hrs, Or.inl hlen⟩
  | predicateFilter pe =>
      cases vm <;>
        · simp only [fieldUsesItemRootFlag, fieldPathFilterFlag,
            valuePathFilterFlag, Bool.not_false, Bool.not_true,
            Bool.and_true, Bool.true_and, Bool.and_false, Bool.false_and,
            Bool.false_eq_true, if_false] at hres
          obtain ⟨xs', _, hrs, hlen⟩ := filterWriteTail _ d lk _ _ res hres
          exact ⟨xs', hrs, Or.inl hlen⟩

theorem C4_filter_miss_creation_witness :
    ∃ xs', (Val.dict [("xs", .list [.dict [("k", .int 1)],
        .dict [("k", .int 2), ("v", .bool true)]])]) =
      .dict (dictSet [("xs", .list [.dict [("k", .int 1)]])] "xs"
        (.list xs')) ∧
      (xs'.length = 1 ∨
        (xs'.length = 1 + 1 ∧ [false].any id = false ∧
          (∃ name, (CompiledFilterMatcher.mk (.key "k") (.literal (.int 2))
            "2").fieldResolver = .key name) ∧
          (∃ lv, (CompiledFilterMatcher.mk (.key "k") (.literal (.int 2))
            "2").valueMatcher = .literal lv) ∧
          "==" = "==" ∧ defaultWriteOptions.createMissing = true ∧
          defaultWriteOptions.createFilterMatch = true)) :=
  C4_filter_miss_creation.2.2
    (sgFor (.dict [("xs", .list [.dict [("k", .int 1)]])]))
    defaultWriteOptions (.dict [("k", .int 2), ("v", .bool true)])
    Option.none (fun x => .ok x) [("xs", .list [.dict [("k", .int 1)]])]
    "xs" "k" "==" "2" [.dict [("k", .int 1)]]
    ⟨.key "k", .literal (.int 2), "2"⟩ [false]
    (.dict [("xs", .list [.dict [("k", .int 1)],
      .dict [("k", .int 2), ("v", .bool true)]])])
    rfl rfl rfl rfl

end DictWalk

namespace DictWalk

/-! ## C1: the set/get round-trip (amended part) -/

/-- Tokens whose SET handler writes a single definite location that the
GET walk then reads back: Get, and Index with a non-negative position. -/
def isSimpleWriteToken : TokenKind → Bool
  | .get _ => true
  | .index _ i => decide (0 ≤ i)
  | _ => false

theorem getD_set_self (xs : List Val) (n : Nat) (a d : Val)
    (h : n < xs.length) : (xs.set n a).getD n d = a := by
  induction xs generalizing n with
  | nil => simp at h
  | cons x xs ih =>
      cases n with
      | zero => rfl
      | succ n =>
          show (xs.set n a).getD n d = a
          exact ih n (by simpa using h)

theorem coerce_dict (cur : Val) (opts : WriteOptions)
    (hcm : opts.createMissing = true)
    (hoi : opts.overwriteIncompatible = true) :
    ∃ d, coerceCurrentToDictForWrite cur opts = .dict d := by
  cases cur with
  | dict d => exact ⟨d, rfl⟩
  | none =>
      exact ⟨[], by simp [coerceCurrentToDictForWrite, Val.isDict, hcm, hoi]⟩
  | bool b =>
      exact ⟨[], by simp [coerceCurrentToDictForWrite, Val.isDict, hcm, hoi]⟩
  | int n =>
      exact ⟨[], by simp [coerceCurrentToDictForWrite, Val.isDict, hcm, hoi]⟩
  | str sv =>
      exact ⟨[], by simp [coerceCurrentToDictForWrite, Val.isDict, hcm, hoi]⟩
  | list xs =>
      exact ⟨[], by simp [coerceCurrentToDictForWrite, Val.isDict, hcm, hoi]⟩

theorem fetch_some (d : List (String × Val)) (key : String)
    (opts : WriteOptions) (hcm : opts.createMissing = true)
    (hoi : opts.overwriteIncompatible = true) :
    ∃ xs, fetchListForWrite d key opts = some xs := by
  unfold fetchListForWrite
  cases hk : dictGet d key with
  | none => exact ⟨[], by simp [hcm]⟩
  | some w =>
      cases w with
      | list xs => exact ⟨xs, rfl⟩
      | none => exact ⟨[], by simp [hoi]⟩
      | bool b => exact ⟨[], by simp [hoi]⟩
      | int n => exact ⟨[], by simp [hoi]⟩
      | str sv => exact ⟨[], by simp [hoi]⟩
      | dict dd => exact ⟨[], by simp [hoi]⟩

theorem pathUsesRoot_false_of_simple (toks : List TokenKind)
    (h : ∀ tk ∈ toks, isSimpleWriteToken tk = true) :
    pathUsesRootToken toks = false := by
  induction toks with
  | nil => rfl
  | cons tk rest ih =>
      have htk := h tk (by simp)
      have hrest := ih (fun x hx => h x (by simp [hx]))
      cases tk with
      | root => simp [isSimpleWriteToken] at htk
      | get k =>
          simpa [pathUsesRootToken, List.any_cons, TokenKind.isRoot]
            using hrest
      | map k =>
          simpa [pathUsesRootToken, List.any_cons, TokenKind.isRoot]
            using hrest
      | wildcard =>
          simpa [pathUsesRootToken, List.any_cons, TokenKind.isRoot]
            using hrest
      | deepWildcard =>
          simpa [pathUsesRootToken, List.any_cons, TokenKind.isRoot]
            using hrest
      | index k i =>
          simpa [pathUsesRootToken, List.any_cons, TokenKind.isRoot]
            using hrest
      | slice k a b =>
          simpa [pathUsesRootToken, List.any_cons, TokenKind.isRoot]
            using hrest
      | filter lk f op v =>
          simpa [pathUsesRootToken, List.any_cons, TokenKind.isRoot]
            using hrest

theorem resolveIndexToken_in_range (d : List (String × Val)) (k : String)
    (i : Int) (xs : List Val) (hk : dictGet d k = some (.list xs))
    (h0 : 0 ≤ i) (hlt : i.toNat < xs.length) :
    resolveIndexToken (.dict d) k i = .ok (xs.getD i.toNat .none) := by
  simp only [resolveIndexToken, hk]
  have hcond : (decide (i ≥ -(xs.length : Int)) &&
      decide (i < (xs.length : Int))) = true := by
    simp only [Bool.and_eq_true, decide_eq_true_eq]
    omega
  simp only [hcond, if_true]
  rw [if_neg (show ¬ i < 0 by omega)]

theorem padded_target_lt (xs : List Val) (n : Nat) (fill : Val) :
    n < (xs ++ List.replicate (n + 1 - xs.length) fill).length := by
  simp only [List.length_append, List.length_replicate]
  omega

/-- A successful `rustSet` on a mapping root returns the write recursion's
result whenever the token list is non-empty. -/
theorem rustSet_ok_dict (t v u : Val) (p : String) (toks : List TokenKind)
    (opts : WriteOptions) (r : Val)
    (hp : parsePath p = .ok toks)
    (hroot : pathUsesRootToken toks = false)
    (hne : toks ≠ [])
    (ht : t.isDict = true)
    (hrec : setRecurse (sgFor t) (Val.size t + 2) opts v toks t = .ok r)
    (hok : rustSet t p v opts false = .ok u) : u = r := by
  unfold rustSet at hok
  rw [hp] at hok
  simp only [Bind.bind, Except.bind, hroot, Bool.false_eq_true, if_false,
    Bool.false_and, pure, Except.pure, hrec] at hok
  injection hok with h
  cases toks with
  | nil => exact absurd rfl hne
  | cons tk rest =>
      simp only [List.head?_cons] at h
      cases tk with
      | get k =>
          rw [ht] at h
          simpa using h.symm
      | map k =>
          rw [ht] at h
          simpa using h.symm
      | index k i =>
          rw [ht] at h
          simpa using h.symm
      | slice k a b =>
          rw [ht] at h
          simpa using h.symm
      | root => exact h.symm
      | wildcard => exact h.symm
      | deepWildcard => exact h.symm
      | filter lk f op vv => exact h.symm

/-- The core induction of the amended C1: over Get / non-negative Index
tokens, with `create_missing` and `overwrite_incompatible` set and a new
value stored verbatim, the write recursion succeeds and the token walk
reads the stored value back from its result. -/
theorem setRecurse_simple_roundtrip (sg : RootGet) (fuel : Nat)
    (opts : WriteOptions) (v : Val)
    (hcm : opts.createMissing = true)
    (hoi : opts.overwriteIncompatible = true)
    (hv : ∀ ex, resolveNewValue sg ex v = .ok v) :
    ∀ (toks : List TokenKind),
      (∀ tk ∈ toks, isSimpleWriteToken tk = true) →
      ∀ cur, ∃ r, setRecurse sg fuel opts v toks cur = .ok r ∧
        ∀ (sg' : RootGet) (root : Val),
          walkTokens sg' root r toks = .ok (.resolved v) := by
  intro toks
  induction toks with
  | nil =>
      intro _ cur
      exact ⟨v, rfl, fun _ _ => rfl⟩
  | cons tk rest ih =>
      intro hsimple cur
      have htk := hsimple tk (by simp)
      have hsimple' : ∀ x ∈ rest, isSimpleWriteToken x = true :=
        fun x hx => hsimple x (by simp [hx])
      obtain ⟨d, hc⟩ := coerce_dict cur opts hcm hoi
      cases tk with
      | root => simp [isSimpleWriteToken] at htk
      | map k => simp [isSimpleWriteToken] at htk
      | wildcard => simp [isSimpleWriteToken] at htk
      | deepWildcard => simp [isSimpleWriteToken] at htk
      | slice k a b => simp [isSimpleWriteToken] at htk
      | filter lk f op vv => simp [isSimpleWriteToken] at htk
      | get key =>
          cases rest with
          | nil =>
              refine ⟨.dict (dictSet d key v), ?_, ?_⟩
              · show setGetToken sg opts v Option.none
                    (setRecurse sg fuel opts v []) cur key = _
                simp only [setGetToken, hc, hcm, Bool.not_true,
                  Bool.and_false, Bool.false_eq_true, if_false, Bind.bind,
                  Except.bind, hv (dictGet d key)]
              · intro sg' root
                rw [walkTokens_cons_nonroot sg' root _ (.get key) [] rfl]
                simp only [resolveToken, resolveGetToken, dictGet_dictSet]
                rfl
          | cons r0 rs =>
              cases hchild : dictGet d key with
              | none =>
                  obtain ⟨r', hrec, hwalk⟩ :=
                    ih hsimple' newWriteContainer
                  refine ⟨.dict (dictSet d key r'), ?_, ?_⟩
                  · show setGetToken sg opts v (some r0)
                        (setRecurse sg fuel opts v (r0 :: rs)) cur key = _
                    simp only [setGetToken, hc, hchild, hcm,
                      Option.isSome_none, Bool.false_and,
                      Bool.false_eq_true, if_false, Option.getD,
                      Bind.bind, Except.bind, hrec]
                  · intro sg' root
                    rw [walkTokens_cons_nonroot sg' root _ (.get key)
                      (r0 :: rs) rfl]
                    simp only [resolveToken, resolveGetToken,
                      dictGet_dictSet]
                    exact hwalk sg' root
              | some child =>
                  cases hdl : isDictOrList child with
                  | true =>
                      obtain ⟨r', hrec, hwalk⟩ := ih hsimple' child
                      refine ⟨.dict (dictSet d key r'), ?_, ?_⟩
                      · show setGetToken sg opts v (some r0)
                            (setRecurse sg fuel opts v (r0 :: rs)) cur
                            key = _
                        simp only [setGetToken, hc, hchild, hcm, hoi,
                          Option.isSome_some, Bool.true_and, hdl,
                          Bool.not_true, Bool.and_false, Bool.false_and,
                          Bool.false_eq_true, if_false, Option.getD,
                          Bind.bind, Except.bind, hrec]
                      · intro sg' root
                        rw [walkTokens_cons_nonroot sg' root _ (.get key)
                          (r0 :: rs) rfl]
                        simp only [resolveToken, resolveGetToken,
                          dictGet_dictSet]
                        exact hwalk sg' root
                  | false =>
                      obtain ⟨r', hrec, hwalk⟩ :=
                        ih hsimple' newWriteContainer
                      refine ⟨.dict (dictSet d key r'), ?_, ?_⟩
                      · show setGetToken sg opts v (some r0)
                            (setRecurse sg fuel opts v (r0 :: rs)) cur
                            key = _
                        simp only [setGetToken, hc, hchild, hcm, hoi,
                          Option.isSome_some, Bool.true_and, hdl,
                          Bool.not_true, Bool.not_false, Bool.and_false,
                          Bool.and_true, Bool.false_eq_true, if_false,
                          if_true, Option.getD, Bind.bind, Except.bind,
                          hrec]
                      · intro sg' root
                        rw [walkTokens_cons_nonroot sg' root _ (.get key)
                          (r0 :: rs) rfl]
                        simp only [resolveToken, resolveGetToken,
                          dictGet_dictSet]
                        exact hwalk sg' root
      | index key i =>
          have h0 : 0 ≤ i := by
            simpa [isSimpleWriteToken, decide_eq_true_eq] using htk
          obtain ⟨xs, hfetch⟩ := fetch_some d key opts hcm hoi
          have h1 : (decide (i < 0) &&
              decide (i < -(xs.length : Int))) = false := by
            have : ¬ i < 0 := by omega
            simp [this]
          have h2 : (decide (i ≥ 0) && !opts.createMissing) = false := by
            rw [hcm]
            simp
          cases rest with
          | nil =>
              refine ⟨.dict (dictSet d key (.list
                ((xs ++ List.replicate (i.toNat + 1 - xs.length)
                  Val.none).set i.toNat v))), ?_, ?_⟩
              · show setIndexToken sg opts v Option.none
                    (setRecurse sg fuel opts v []) cur key i = _
                simp only [setIndexToken, hc, hfetch, h1,
                  Bool.false_eq_true, if_false, h2,
                  if_pos (show i ≥ 0 from h0),
                  if_neg (show ¬ i < 0 by omega), Option.isSome_none,
                  Bind.bind, Except.bind, hv]
              · intro sg' root
                rw [walkTokens_cons_nonroot sg' root _ (.index key i) []
                  rfl]
                have htarget := padded_target_lt xs i.toNat Val.none
                have hread : resolveIndexToken
                    (.dict (dictSet d key (.list
                      ((xs ++ List.replicate (i.toNat + 1 - xs.length)
                        Val.none).set i.toNat v)))) key i = .ok v := by
                  rw [resolveIndexToken_in_range _ _ _ _
                    (dictGet_dictSet d key _) h0
                    (by simpa [List.length_set] using htarget)]
                  rw [getD_set_self _ _ _ _ htarget]
                simp only [resolveToken, hread]
                rfl
          | cons r0 rs =>
              have htarget := padded_target_lt xs i.toNat newWriteContainer
              cases hdl : isDictOrList ((xs ++ List.replicate
                  (i.toNat + 1 - xs.length) newWriteContainer).getD
                    i.toNat Val.none) with
              | true =>
                  obtain ⟨r', hrec, hwalk⟩ := ih hsimple'
                    ((xs ++ List.replicate (i.toNat + 1 - xs.length)
                      newWriteContainer).getD i.toNat Val.none)
                  refine ⟨.dict (dictSet d key (.list
                    ((xs ++ List.replicate (i.toNat + 1 - xs.length)
                      newWriteContainer).set i.toNat r'))), ?_, ?_⟩
                  · show setIndexToken sg opts v (some r0)
                        (setRecurse sg fuel opts v (r0 :: rs)) cur key
                        i = _
                    simp only [setIndexToken, hc, hfetch, h1,
                      Bool.false_eq_true, if_false, h2,
                      if_pos (show i ≥ 0 from h0),
                      if_neg (show ¬ i < 0 by omega), Option.isSome_some,
                      eq_self_iff_true, if_true, Bool.true_and, hdl,
                      Bool.not_true, Bool.and_false, hoi, Bool.false_and,
                      Bind.bind, Except.bind, hrec]
                  · intro sg' root
                    rw [walkTokens_cons_nonroot sg' root _ (.index key i)
                      (r0 :: rs) rfl]
                    have hread : resolveIndexToken
                        (.dict (dictSet d key (.list
                          ((xs ++ List.replicate (i.toNat + 1 - xs.length)
                            newWriteContainer).set i.toNat r')))) key i =
                        .ok r' := by
                      rw [resolveIndexToken_in_range _ _ _ _
                        (dictGet_dictSet d key _) h0
                        (by simpa [List.length_set] using htarget)]
                      rw [getD_set_self _ _ _ _ htarget]
                    simp only [resolveToken, hread]
                    exact hwalk sg' root
              | false =>
                  obtain ⟨r', hrec, hwalk⟩ := ih hsimple' newWriteContainer
                  refine ⟨.dict (dictSet d key (.list
                    ((xs ++ List.replicate (i.toNat + 1 - xs.length)
                      newWriteContainer).set i.toNat r'))), ?_, ?_⟩
                  · show setIndexToken sg opts v (some r0)
                        (setRecurse sg fuel opts v (r0 :: rs)) cur key
                        i = _
                    simp only [setIndexToken, hc, hfetch, h1,
                      Bool.false_eq_true, if_false, h2,
                      if_pos (show i ≥ 0 from h0),
                      if_neg (show ¬ i < 0 by omega), Option.isSome_some,
                      eq_self_iff_true, if_true, Bool.true_and, hdl,
                      Bool.not_true, Bool.not_false, Bool.and_false,
                      Bool.and_true, hoi, Bool.false_and,
                      Bind.bind, Except.bind, hrec]
                  · intro sg' root
                    rw [walkTokens_cons_nonroot sg' root _ (.index key i)
                      (r0 :: rs) rfl]
                    have hread : resolveIndexToken
                        (.dict (dictSet d key (.list
                          ((xs ++ List.replicate (i.toNat + 1 - xs.length)
                            newWriteContainer).set i.toNat r')))) key i =
                        .ok r' := by
                      rw [resolveIndexToken_in_range _ _ _ _
                        (dictGet_dictSet d key _) h0
                        (by simpa [List.length_set] using htarget)]
                      rw [getD_set_self _ _ _ _ htarget]
                    simp only [resolveToken, hread]
                    exact hwalk sg' root

/-- C1 (amended): the round-trip `set(t, p, v); get(t, p) = v` holds with
`create_missing=true` (and `overwrite_incompatible=true`, the default) for
mapping roots, on transform-free paths made of Get and non-negative Index
tokens, provided the stored value is taken verbatim by
`resolve_new_value` (a `$pipeline` or `$$root…` string is not — see the
counterexample). -/
theorem C1_set_get_roundtrip (t v u : Val) (p : String)
    (toks : List TokenKind)
    (hp : parsePath p = .ok toks)
    (hne : toks ≠ [])
    (hsimple : ∀ tk ∈ toks, isSimpleWriteToken tk = true)
    (hsp : splitPathAndTransform p = (p, Option.none)) (hdot : p ≠ ".")
    (ht : t.isDict = true)
    (hv : ∀ ex, resolveNewValue (sgFor t) ex v = .ok v)
    (hset : rustSet t p v defaultWriteOptions false = .ok u) :
    rustGet u p .none false = .ok v := by
  obtain ⟨r, hrec, hwalk⟩ := setRecurse_simple_roundtrip (sgFor t)
    (Val.size t + 2) defaultWriteOptions v rfl rfl hv toks hsimple t
  have hroot := pathUsesRoot_false_of_simple toks hsimple
  have hu : u = r := rustSet_ok_dict t v u p toks defaultWriteOptions r hp
    hroot hne ht hrec hset
  rw [rustGet_eq_walk u .none p false hsp hdot, hp]
  simp only [Bind.bind, Except.bind, hu, hwalk (sgFor r) r]

theorem C1_set_get_roundtrip_witness :
    rustGet (.dict [("a", .dict [("b", .list [Val.none, Val.none,
        .int 7])])]) "a.b[2]" .none false = .ok (.int 7) :=
  C1_set_get_roundtrip (.dict []) (.int 7)
    (.dict [("a", .dict [("b", .list [Val.none, Val.none, .int 7])])])
    "a.b[2]" [.get "a", .index "b" 2] (by decide) (by decide) (by decide)
    (by decide) (by decide) (by decide) (fun ex => rfl) (by decide)

end DictWalk

namespace DictWalk

/-! ## C7: unset idempotence -/

/-- C7 counterexample: slice indexes are positional and are recomputed on
the already-shrunk list, so a terminal-slice unset is not idempotent:
unsetting `"a[0:1]"` twice removes two elements. -/
theorem C7_counterexample :
    rustUnset (.dict [("a", .list [.int 1, .int 5])]) "a[0:1]" false =
        .ok (.dict [("a", .list [.int 5])]) ∧
      rustUnset (.dict [("a", .list [.int 5])]) "a[0:1]" false =
        .ok (.dict [("a", .list [])]) ∧
      (Val.dict [("a", .list [.int 5])]) ≠ .dict [("a", .list [])] :=
  ⟨by decide, by decide, by decide⟩

/-- Python dicts cannot hold duplicate keys; the assoc-list model records
that as an explicit invariant. -/
def uniqueKeys : List (String × Val) → Bool
  | [] => true
  | (k, _) :: rest => !dictContains rest k && uniqueKeys rest

mutual

/-- Recursive well-formedness: every mapping in the tree has unique keys
(automatic for values that came from Python dicts). -/
def Val.pyWF : Val → Bool
  | .none => true
  | .bool _ => true
  | .int _ => true
  | .str _ => true
  | .list xs => Val.pyWFList xs
  | .dict d => uniqueKeys d && Val.pyWFDict d

def Val.pyWFList : List Val → Bool
  | [] => true
  | x :: xs => Val.pyWF x && Val.pyWFList xs

def Val.pyWFDict : List (String × Val) → Bool
  | [] => true
  | (_, v) :: rest => Val.pyWF v && Val.pyWFDict rest

end

theorem dictGet_dictDel_self (d : List (String × Val)) (k : String)
    (h : uniqueKeys d = true) : dictGet (dictDel d k) k = Option.none := by
  induction d with
  | nil => rfl
  | cons hd rest ih =>
      obtain ⟨k', v'⟩ := hd
      simp only [uniqueKeys, Bool.and_eq_true] at h
      by_cases hk : k' = k
      · subst hk
        simp only [dictDel, eq_self_iff_true, if_true]
        cases hg : dictGet rest k' with
        | none => rfl
        | some w =>
            have hcon : dictContains rest k' = true := by
              simp [dictContains, hg]
            have h1 := h.1
            rw [hcon] at h1
            simp at h1
      · simp only [dictDel, if_neg hk, dictGet, if_neg hk]
        exact ih h.2

theorem pyWFDict_get :
    ∀ (d : List (String × Val)) (k : String) (v : Val),
      Val.pyWFDict d = true → dictGet d k = some v → v.pyWF = true := by
  intro d
  induction d with
  | nil =>
      intro k v _ hget
      simp [dictGet] at hget
  | cons hd rest ih =>
      intro k v hwf hget
      obtain ⟨k0, v0⟩ := hd
      simp only [Val.pyWFDict, Bool.and_eq_true] at hwf
      by_cases hk : k0 = k
      · simp only [dictGet, if_pos hk] at hget
        injection hget with h'
        rw [← h']
        exact hwf.1
      · simp only [dictGet, if_neg hk] at hget
        exact ih k v hwf.2 hget

theorem keepNotMatching_all_false (test : Val → PyResult Bool) :
    ∀ (xs ys : List Val), keepNotMatching test xs = .ok ys →
      ∀ y ∈ ys, test y = .ok false := by
  intro xs
  induction xs with
  | nil =>
      intro ys h y hy
      simp only [keepNotMatching] at h
      injection h with h'
      rw [← h'] at hy
      simp at hy
  | cons x xs ih =>
      intro ys h y hy
      simp only [keepNotMatching, Bind.bind, Except.bind] at h
      revert h
      cases hm : test x with
      | error e =>
          intro h
          exact absurd h (by simp)
      | ok b =>
          cases hrest : keepNotMatching test xs with
          | error e =>
              intro h
              exact absurd h (by simp)
          | ok rest =>
              intro h
              simp only [pure, Except.pure] at h
              injection h with h'
              cases b with
              | true =>
                  have h2 : rest = ys := h'
                  rw [← h2] at hy
                  exact ih rest hrest y hy
              | false =>
                  have h2 : x :: rest = ys := h'
                  rw [← h2] at hy
                  rcases List.mem_cons.mp hy with hyx | hyr
                  · rw [hyx]
                    exact hm
                  · exact ih rest hrest y hyr

theorem keepNotMatching_stable (test : Val → PyResult Bool) :
    ∀ (ys : List Val), (∀ y ∈ ys, test y = .ok false) →
      keepNotMatching test ys = .ok ys := by
  intro ys
  induction ys with
  | nil => intro _; rfl
  | cons y ys ih =>
      intro h
      have hy := h y (by simp)
      have hrest := ih (fun z hz => h z (by simp [hz]))
      simp only [keepNotMatching, Bind.bind, Except.bind, hy, hrest, pure,
        Except.pure, Bool.false_eq_true, if_false]

/-- The path shapes of the amended C7: a chain of Get tokens ending in a
Get, Map, Wildcard or Filter token. -/
def simpleUnsetPath : List TokenKind → Bool
  | [.get _] => true
  | [.map _] => true
  | [.wildcard] => true
  | [.filter _ _ _ _] => true
  | .get _ :: t :: rest => simpleUnsetPath (t :: rest)
  | _ => false

theorem simpleUnsetPath_no_root :
    ∀ toks, simpleUnsetPath toks = true → pathUsesRootToken toks = false := by
  intro toks
  induction toks with
  | nil =>
      intro h
      simp [simpleUnsetPath] at h
  | cons tk rest ih =>
      intro h
      cases rest with
      | nil =>
          cases tk with
          | get k => rfl
          | map k => rfl
          | wildcard => rfl
          | filter lk f op v => rfl
          | root => simp [simpleUnsetPath] at h
          | deepWildcard => simp [simpleUnsetPath] at h
          | index k i => simp [simpleUnsetPath] at h
          | slice k a b => simp [simpleUnsetPath] at h
      | cons t2 ts =>
          cases tk with
          | get k =>
              have h' := ih (by simpa [simpleUnsetPath] using h)
              simpa [pathUsesRootToken, List.any_cons, TokenKind.isRoot]
                using h'
          | map k => simp [simpleUnsetPath] at h
          | wildcard => simp [simpleUnsetPath] at h
          | filter lk f op v => simp [simpleUnsetPath] at h
          | root => simp [simpleUnsetPath] at h
          | deepWildcard => simp [simpleUnsetPath] at h
          | index k i => simp [simpleUnsetPath] at h
          | slice k a b => simp [simpleUnsetPath] at h

end DictWalk

namespace DictWalk

/-- The core induction of the amended C7: on a Get-chain ending in a Get,
Map, Wildcard or Filter token, a successful unset recursion over a
well-formed tree is a fixed point of a second run (with any deep-walk
fuel). -/
theorem unsetRecurse_idem :
    ∀ (toks : List TokenKind), simpleUnsetPath toks = true →
      ∀ (cur r : Val), cur.pyWF = true →
        ∀ f, unsetRecurse f toks cur = .ok r →
          ∀ f2, unsetRecurse f2 toks r = .ok r := by
  intro toks
  induction toks with
  | nil =>
      intro hs
      simp [simpleUnsetPath] at hs
  | cons tk rest ih =>
      intro hs cur r hwf f hok f2
      cases rest with
      | nil =>
          cases tk with
          | root => simp [simpleUnsetPath] at hs
          | deepWildcard => simp [simpleUnsetPath] at hs
          | index k i => simp [simpleUnsetPath] at hs
          | slice k a b => simp [simpleUnsetPath] at hs
          | get key =>
              cases cur with
              | dict d =>
                  injection hok with h2
                  rw [← h2]
                  show (Except.ok (Val.dict (dictDel (dictDel d key) key)) :
                    PyResult Val) = _
                  have hu : uniqueKeys d = true := by
                    simp only [Val.pyWF, Bool.and_eq_true] at hwf
                    exact hwf.1
                  rw [dictDel_of_not_contains _ _
                    (dictGet_dictDel_self d key hu)]
              | none =>
                  injection hok with h2
                  rw [← h2]
                  rfl
              | bool b =>
                  injection hok with h2
                  rw [← h2]
                  rfl
              | int n =>
                  injection hok with h2
                  rw [← h2]
                  rfl
              | str sv =>
                  injection hok with h2
                  rw [← h2]
                  rfl
              | list xs =>
                  injection hok with h2
                  rw [← h2]
                  rfl
          | map key =>
              cases cur with
              | dict d =>
                  have hok1 : unsetMapToken (unsetRecurse f []) true
                      (.dict d) key = .ok r := hok
                  simp only [unsetMapToken] at hok1
                  revert hok1
                  cases hg : dictGet d key with
                  | none =>
                      intro hok2
                      injection hok2 with h2
                      rw [← h2]
                      have hgoal : unsetMapToken (unsetRecurse f2 []) true
                          (.dict d) key = .ok (.dict d) := by
                        simp only [unsetMapToken, hg]
                      exact hgoal
                  | some w =>
                      cases w with
                      | list xs =>
                          intro hok2
                          injection hok2 with h2
                          rw [← h2]
                          have hgoal : unsetMapToken (unsetRecurse f2 [])
                              true (.dict (dictSet d key (.list []))) key =
                              .ok (.dict (dictSet d key (.list []))) := by
                            simp only [unsetMapToken, dictGet_dictSet,
                              eq_self_iff_true, if_true, dictSet_dictSet]
                          exact hgoal
                      | none =>
                          intro hok2
                          injection hok2 with h2
                          rw [← h2]
                          have hgoal : unsetMapToken (unsetRecurse f2 [])
                              true (.dict d) key = .ok (.dict d) := by
                            simp only [unsetMapToken, hg]
                          exact hgoal
                      | bool b =>
                          intro hok2
                          injection hok2 with h2
                          rw [← h2]
                          have hgoal : unsetMapToken (unsetRecurse f2 [])
                              true (.dict d) key = .ok (.dict d) := by
                            simp only [unsetMapToken, hg]
                          exact hgoal
                      | int n =>
                          intro hok2
                          injection hok2 with h2
                          rw [← h2]
                          have hgoal : unsetMapToken (unsetRecurse f2 [])
                              true (.dict d) key = .ok (.dict d) := by
                            simp only [unsetMapToken, hg]
                          exact hgoal
                      | str sv =>
                          intro hok2
                          injection hok2 with h2
                          rw [← h2]
                          have hgoal : unsetMapToken (unsetRecurse f2 [])
                              true (.dict d) key = .ok (.dict d) := by
                            simp only [unsetMapToken, hg]
                          exact hgoal
                      | dict dd =>
                          intro hok2
                          injection hok2 with h2
                          rw [← h2]
                          have hgoal : unsetMapToken (unsetRecurse f2 [])
                              true (.dict d) key = .ok (.dict d) := by
                            simp only [unsetMapToken, hg]
                          exact hgoal
              | none =>
                  injection hok with h2
                  rw [← h2]
                  rfl
              | bool b =>
                  injection hok with h2
                  rw [← h2]
                  rfl
              | int n =>
                  injection hok with h2
                  rw [← h2]
                  rfl
              | str sv =>
                  injection hok with h2
                  rw [← h2]
                  rfl
              | list xs =>
                  injection hok with h2
                  rw [← h2]
                  rfl
          | wildcard =>
              cases cur with
              | dict d =>
                  injection hok with h2
                  rw [← h2]
                  rfl
              | list xs =>
                  injection hok with h2
                  rw [← h2]
                  rfl
              | none =>
                  injection hok with h2
                  rw [← h2]
                  rfl
              | bool b =>
                  injection hok with h2
                  rw [← h2]
                  rfl
              | int n =>
                  injection hok with h2
                  rw [← h2]
                  rfl
              | str sv =>
                  injection hok with h2
                  rw [← h2]
                  rfl
          | filter lk fl op vv =>
              cases cur with
              | dict d =>
                  have hok1 : unsetFilterToken (unsetRecurse f []) true
                      (.dict d) lk fl op vv = .ok r := hok
                  simp only [unsetFilterToken, Bind.bind, Except.bind]
                    at hok1
                  revert hok1
                  cases hg : dictGet d lk with
                  | none =>
                      intro hok2
                      injection hok2 with h2
                      rw [← h2]
                      have hgoal : unsetFilterToken (unsetRecurse f2 [])
                          true (.dict d) lk fl op vv = .ok (.dict d) := by
                        simp only [unsetFilterToken, hg]
                      exact hgoal
                  | some w =>
                      cases w with
                      | list xs =>
                          intro hok2
                          revert hok2
                          cases hmatch : compileFilterMatcher fl vv with
                          | error e =>
                              intro hok2
                              exact absurd hok2 (by simp)
                          | ok m =>
                              intro hok2
                              simp only [eq_self_iff_true, if_true] at hok2
                              revert hok2
                              cases hkeep : keepNotMatching
                                  (filterMatchesCompiled Option.none op m)
                                  xs with
                              | error e =>
                                  intro hok2
                                  exact absurd hok2 (by simp)
                              | ok kept =>
                                  intro hok2
                                  injection hok2 with h2
                                  rw [← h2]
                                  have hall := keepNotMatching_all_false
                                    (filterMatchesCompiled Option.none op
                                      m) xs kept hkeep
                                  have hstable := keepNotMatching_stable
                                    (filterMatchesCompiled Option.none op
                                      m) kept hall
                                  have hgoal : unsetFilterToken
                                      (unsetRecurse f2 []) true
                                      (.dict (dictSet d lk (.list kept)))
                                      lk fl op vv =
                                      .ok (.dict (dictSet d lk
                                        (.list kept))) := by
                                    simp only [unsetFilterToken,
                                      dictGet_dictSet, Bind.bind,
                                      Except.bind, hmatch,
                                      eq_self_iff_true, if_true, hstable,
                                      dictSet_dictSet]
                                  exact hgoal
                      | none =>
                          intro hok2
                          injection hok2 with h2
                          rw [← h2]
                          have hgoal : unsetFilterToken
                              (unsetRecurse f2 []) true (.dict d) lk fl
                              op vv = .ok (.dict d) := by
                            simp only [unsetFilterToken, hg]
                          exact hgoal
                      | bool b =>
                          intro hok2
                          injection hok2 with h2
                          rw [← h2]
                          have hgoal : unsetFilterToken
                              (unsetRecurse f2 []) true (.dict d) lk fl
                              op vv = .ok (.dict d) := by
                            simp only [unsetFilterToken, hg]
                          exact hgoal
                      | int n =>
                          intro hok2
                          injection hok2 with h2
                          rw [← h2]
                          have hgoal : unsetFilterToken
                              (unsetRecurse f2 []) true (.dict d) lk fl
                              op vv = .ok (.dict d) := by
                            simp only [unsetFilterToken, hg]
                          exact hgoal
                      | str sv =>
                          intro hok2
                          injection hok2 with h2
                          rw [← h2]
                          have hgoal : unsetFilterToken
                              (unsetRecurse f2 []) true (.dict d) lk fl
                              op vv = .ok (.dict d) := by
                            simp only [unsetFilterToken, hg]
                          exact hgoal
                      | dict dd =>
                          intro hok2
                          injection hok2 with h2
                          rw [← h2]
                          have hgoal : unsetFilterToken
                              (unsetRecurse f2 []) true (.dict d) lk fl
                              op vv = .ok (.dict d) := by
                            simp only [unsetFilterToken, hg]
                          exact hgoal
              | none =>
                  injection hok with h2
                  rw [← h2]
                  rfl
              | bool b =>
                  injection hok with h2
                  rw [← h2]
                  rfl
              | int n =>
                  injection hok with h2
                  rw [← h2]
                  rfl
              | str sv =>
                  injection hok with h2
                  rw [← h2]
                  rfl
              | list xs =>
                  injection hok with h2
                  rw [← h2]
                  rfl
      | cons t2 ts =>
          cases tk with
          | map k => simp [simpleUnsetPath] at hs
          | wildcard => simp [simpleUnsetPath] at hs
          | filter lk fl op vv => simp [simpleUnsetPath] at hs
          | root => simp [simpleUnsetPath] at hs
          | deepWildcard => simp [simpleUnsetPath] at hs
          | index k i => simp [simpleUnsetPath] at hs
          | slice k a b => simp [simpleUnsetPath] at hs
          | get key =>
              have hs2 : simpleUnsetPath (t2 :: ts) = true := by
                simpa [simpleUnsetPath] using hs
              cases cur with
              | dict d =>
                  have hok1 : unsetGetToken (unsetRecurse f (t2 :: ts))
                      false (.dict d) key = .ok r := hok
                  simp only [unsetGetToken, Bool.false_eq_true, if_false]
                    at hok1
                  revert hok1
                  cases hg : dictGet d key with
                  | none =>
                      intro hok2
                      injection hok2 with h2
                      rw [← h2]
                      have hgoal : unsetGetToken
                          (unsetRecurse f2 (t2 :: ts)) false (.dict d)
                          key = .ok (.dict d) := by
                        simp only [unsetGetToken, Bool.false_eq_true,
                          if_false, hg]
                      exact hgoal
                  | some child =>
                      cases hrec : unsetRecurse f (t2 :: ts) child with
                      | error e =>
                          intro hok2
                          simp only [Bind.bind, Except.bind, hrec] at hok2
                          exact absurd hok2 (by simp)
                      | ok child2 =>
                          intro hok2
                          simp only [Bind.bind, Except.bind, hrec] at hok2
                          injection hok2 with h2
                          rw [← h2]
                          have hcwf : child.pyWF = true := by
                            have hdwf : Val.pyWFDict d = true := by
                              simp only [Val.pyWF, Bool.and_eq_true] at hwf
                              exact hwf.2
                            exact pyWFDict_get d key child hdwf hg
                          have hidem := ih hs2 child child2 hcwf f hrec f2
                          have hgoal : unsetGetToken
                              (unsetRecurse f2 (t2 :: ts)) false
                              (.dict (dictSet d key child2)) key =
                              .ok (.dict (dictSet d key child2)) := by
                            simp only [unsetGetToken, Bool.false_eq_true,
                              if_false, dictGet_dictSet, Bind.bind,
                              Except.bind, hidem, dictSet_dictSet]
                          exact hgoal
              | none =>
                  injection hok with h2
                  rw [← h2]
                  rfl
              | bool b =>
                  injection hok with h2
                  rw [← h2]
                  rfl
              | int n =>
                  injection hok with h2
                  rw [← h2]
                  rfl
              | str sv =>
                  injection hok with h2
                  rw [← h2]
                  rfl
              | list xs =>
                  injection hok with h2
                  rw [← h2]
                  rfl

/-- C7 (amended): UNSET is idempotent on well-formed trees for Get-chain
paths whose terminal token is a Get, Map, Wildcard or Filter: a second
lenient unset of the same path returns the first result unchanged.  The
original unrestricted claim fails for terminal Slice tokens (see the
counterexample), whose positional indexes are recomputed against the
already-shrunk list. -/
theorem C7_unset_idempotent (t u : Val) (p : String)
    (toks : List TokenKind)
    (hp : parsePath p = .ok toks)
    (hshape : simpleUnsetPath toks = true)
    (hwf : t.pyWF = true)
    (hu : rustUnset t p false = .ok u) :
    rustUnset u p false = .ok u := by
  have hroot := simpleUnsetPath_no_root toks hshape
  unfold rustUnset at hu ⊢
  rw [hp] at hu ⊢
  simp only [Bind.bind, Except.bind, hroot, Bool.false_eq_true, if_false,
    Bool.false_and, pure, Except.pure] at hu ⊢
  exact unsetRecurse_idem toks hshape t u hwf _ hu _

theorem C7_unset_idempotent_witness :
    rustUnset (.dict [("a", .dict [("b", .int 1), ("c", .int 2)])]) "a.b"
        false = .ok (.dict [("a", .dict [("c", .int 2)])]) ∧
      rustUnset (.dict [("a", .dict [("c", .int 2)])]) "a.b" false =
        .ok (.dict [("a", .dict [("c", .int 2)])]) :=
  ⟨by decide, C7_unset_idempotent
    (.dict [("a", .dict [("b", .int 1), ("c", .int 2)])])
    (.dict [("a", .dict [("c", .int 2)])]) "a.b" [.get "a", .get "b"]
    (by decide) (by decide) (by decide) (by decide)⟩

end DictWalk
